import Mathlib

/-!
# ros2-performance: resource usage logger, node registration, topology factory

A shallow embedding of

* `performance_metrics/src/resource_usage_logger.cpp` and its header
  (`ResourceUsageLogger`: `start`, `stop`, `set_system_info`, `_get`,
  `_print_header`, `_print`, and the detached sampler thread of `start`),
* the batch overload of `System::add_node` in `performance_test/system.hpp`,
* the topology scenario of `performance_test_factory/test/test_factory.cpp`.

Text is a `List Char`.  Unsigned 64-bit values are naturals reduced modulo
`2 ^ 64` where a conversion or a product can wrap; `int` and `long` values are
integers.  The text that the standard library produces for floating-point
values is not part of the repository and enters as a parameter (`FloatText`).
-/

set_option maxRecDepth 100000

namespace performance_metrics

/-! ## Stream text -/

/-- Whitespace in the sense of `std::isspace` in the "C" locale. -/
def isSpace (c : Char) : Bool :=
  c = ' ' || c = '\t' || c = '\n' || c = '\x0b' || c = '\x0c' || c = '\r'

/-- Splitting on whitespace; `cur` is the column being read. -/
def wordsAux : List Char → List Char → List (List Char)
  | [], cur => if cur = [] then [] else [cur]
  | c :: cs, cur =>
    if isSpace c then
      (if cur = [] then wordsAux cs [] else cur :: wordsAux cs [])
    else wordsAux cs (cur ++ [c])

/-- The whitespace-separated columns of a text. -/
def words (s : List Char) : List (List Char) := wordsAux s []

/-- The lines of a text: the runs of characters closed by a line feed, and a last
unfinished run when there is one. -/
def linesAux : List Char → List Char → List (List Char)
  | [], cur => if cur = [] then [] else [cur]
  | c :: cs, cur => if c = '\n' then cur :: linesAux cs [] else linesAux cs (cur ++ [c])

/-- The lines of a text. -/
def lines (s : List Char) : List (List Char) := linesAux s []

/-- The insertion `stream << std::left << std::setw(w) << std::setfill(' ') << s`:
the text, then fill characters up to the width; a text of `w` characters or more is
written whole and gets no fill. -/
def put_left (w : Nat) (s : List Char) : List Char :=
  s ++ List.replicate (w - s.length) ' '

/-- Decimal text of an unsigned integer (`operator<<` for `uint64_t`). -/
def put_nat (n : Nat) : List Char := Nat.toDigits 10 n

/-- Decimal text of a signed integer (`operator<<` for `int`). -/
def put_int : Int → List Char
  | Int.ofNat n => put_nat n
  | Int.negSucc n => '-' :: put_nat (n + 1)

/-- The floating-point side of the standard library, for a type `D` of `double`
values and a type `F` of `float` values: the zero values, `std::round`, and the text
written by `operator<<` in the default notation and in `std::fixed` notation at a
given precision. -/
structure FloatText (D F : Type) where
  zero : D
  zerof : F
  round : D → D
  general : Nat → D → List Char
  fixedf : Nat → F → List Char

/-- A text without whitespace. -/
def NoSpace (s : List Char) : Prop := ∀ c ∈ s, isSpace c = false

/-- A column: a non-empty text without whitespace. -/
def Token (s : List Char) : Prop := s ≠ [] ∧ NoSpace s

/-- Every floating-point text is a column (digits, sign, point, exponent, `inf`,
`nan`). -/
def FloatText.WellFormed {D F : Type} (fmt : FloatText D F) : Prop :=
  (∀ p d, Token (fmt.general p d)) ∧ (∀ p f, Token (fmt.fixedf p f))

/-- The floating-point text of natural-number values: at precision `p` the default
notation writes the plain decimal digits of a value below `10 ^ p`, and the fixed
notation adds the point and `p` zero decimals.  It stands for the standard library at
such values only. -/
def natText : FloatText Nat Nat where
  zero := 0
  zerof := 0
  round := fun d => d
  general := fun _ d => put_nat d
  fixedf := fun p f => put_nat f ++ (if p = 0 then [] else '.' :: List.replicate p '0')

/-! ## The logger -/

/-- The record `ResourceUsageLogger::Resources`. -/
structure Resources (D : Type) where
  elasped_ms : D
  cpu_usage : D
  mem_arena_KB : Nat
  mem_in_use_KB : Nat
  mem_mmap_KB : Nat
  mem_max_rss_KB : Nat
  mem_virtual_KB : Nat

/-- The stream `m_file`: whether a file is associated, whether an operation has
failed since the last successful `open`, and the characters the file has received. -/
structure FileStream where
  is_open : Bool
  failed : Bool
  content : List Char
deriving DecidableEq

/-- The call `m_file.open(m_filename, std::fstream::out)`; `ok` tells whether the
file system grants the request.  Opening a stream that is already open fails and
leaves the association alone; a successful open truncates the file and clears the
error state. -/
def FileStream.open (f : FileStream) (ok : Bool) : FileStream :=
  if f.is_open then { f with failed := true }
  else if ok then { is_open := true, failed := false, content := [] }
  else { f with failed := true }

/-- The call `m_file.close()`. -/
def FileStream.close (f : FileStream) : FileStream :=
  if f.is_open then { f with is_open := false } else { f with failed := true }

/-- Formatted output to the stream: the characters reach the file when the stream is
open and has not failed; otherwise nothing is written and the stream is failed. -/
def FileStream.write (f : FileStream) (s : List Char) : FileStream :=
  if f.is_open && !f.failed then { f with content := f.content ++ s }
  else { f with failed := true }

/-- The data members of `ResourceUsageLogger`, and the text sent to `std::cout`. -/
structure ResourceUsageLogger (D F : Type) where
  _resources : Resources D
  m_file : FileStream
  m_filename : List Char
  _log : Bool
  _done : Bool
  _pid : Nat
  _pagesize : Int
  m_got_system_info : Bool
  m_pubs : Int
  m_subs : Int
  m_frequency : F
  cout : List Char

/-- The constructor `ResourceUsageLogger(filename)` with the member initialisers of
the class; `pid` and `pagesize` are what `getpid()` and `getpagesize()` return. -/
def ResourceUsageLogger.new {D F : Type} (fmt : FloatText D F) (filename : List Char)
    (pid : Nat) (pagesize : Int) : ResourceUsageLogger D F where
  _resources :=
    { elasped_ms := fmt.zero, cpu_usage := fmt.zero, mem_arena_KB := 0, mem_in_use_KB := 0,
      mem_mmap_KB := 0, mem_max_rss_KB := 0, mem_virtual_KB := 0 }
  m_file := { is_open := false, failed := false, content := [] }
  m_filename := filename
  _log := false
  _done := true
  _pid := pid
  _pagesize := pagesize
  m_got_system_info := false
  m_pubs := 0
  m_subs := 0
  m_frequency := fmt.zerof
  cout := []

/-- Field width `wide_space`. -/
def wide_space : Nat := 15

/-- Field width `narrow_space`. -/
def narrow_space : Nat := 10

/-- The characters `_print_header` inserts into its stream. -/
def _print_header {D F : Type} (L : ResourceUsageLogger D F) : List Char :=
  put_left wide_space "time[ms]".toList
  ++ put_left narrow_space "cpu[%]".toList
  ++ put_left wide_space "arena[KB]".toList
  ++ put_left wide_space "in_use[KB]".toList
  ++ put_left wide_space "mmap[KB]".toList
  ++ put_left wide_space "rss[KB]".toList
  ++ put_left wide_space "vsz[KB]".toList
  ++ (if L.m_got_system_info then
        put_left wide_space "pubs".toList
        ++ put_left wide_space "subs".toList
        ++ put_left wide_space "frequency".toList
      else [])
  ++ ['\n']

/-- The characters `_print` inserts into its stream. -/
def _print {D F : Type} (fmt : FloatText D F) (L : ResourceUsageLogger D F) : List Char :=
  put_left wide_space (fmt.general (wide_space - 1) (fmt.round L._resources.elasped_ms))
  ++ put_left narrow_space (fmt.general 2 L._resources.cpu_usage)
  ++ put_left wide_space (put_nat L._resources.mem_arena_KB)
  ++ put_left wide_space (put_nat L._resources.mem_in_use_KB)
  ++ put_left wide_space (put_nat L._resources.mem_mmap_KB)
  ++ put_left wide_space (put_nat L._resources.mem_max_rss_KB)
  ++ put_left wide_space (put_nat L._resources.mem_virtual_KB)
  ++ (if L.m_got_system_info then
        put_left wide_space (put_int L.m_pubs)
        ++ put_left wide_space (put_int L.m_subs)
        ++ put_left wide_space (fmt.fixedf 2 L.m_frequency)
      else [])
  ++ ['\n']

/-- The method `set_system_info`. -/
def set_system_info {D F : Type} (pubs subs : Int) (frequency : F)
    (L : ResourceUsageLogger D F) : ResourceUsageLogger D F :=
  if L._log = true then
    { L with cout := L.cout ++
        "[ResourceUsageLogger]: You have to set system info before starting the logger!\n".toList }
  else
    { L with m_pubs := pubs, m_subs := subs, m_frequency := frequency,
             m_got_system_info := true }

/-- The two exceptions of `std::stoi`. -/
inductive StoiError
  | invalid_argument
  | out_of_range
deriving DecidableEq

/-- The sign that `std::stoi` reads before the digits, and the text after it. -/
def stoi_sign : List Char → Bool × List Char
  | [] => (false, [])
  | c :: r => if c = '-' then (true, r) else if c = '+' then (false, r) else (false, c :: r)

/-- The value of a run of decimal digits. -/
def digits_value (ds : List Char) : Nat :=
  ds.foldl (fun a c => 10 * a + (c.toNat - 48)) 0

/-- The call `std::stoi(str)` (base 10): leading whitespace is skipped, a sign is
read, then the longest run of digits; without a digit it throws
`std::invalid_argument`, and with a value outside the range of `int` it throws
`std::out_of_range`. -/
def stoi (str : List Char) : Except StoiError Int :=
  let signed := stoi_sign (str.dropWhile isSpace)
  let ds := signed.2.takeWhile Char.isDigit
  if ds = [] then Except.error StoiError.invalid_argument
  else
    let v : Int := if signed.1 then -(digits_value ds : Int) else (digits_value ds : Int)
    if v < -2147483648 ∨ 2147483647 < v then Except.error StoiError.out_of_range
    else Except.ok v

/-- The extraction `in >> str` into an empty string: leading whitespace is skipped
and the characters up to the next whitespace are read. -/
def first_token (text : List Char) : List Char :=
  (text.dropWhile isSpace).takeWhile (fun c => !isSpace c)

/-- Conversion of a signed integer to `uint64_t`. -/
def to_uint64 (z : Int) : Nat := (z % 2 ^ 64).toNat

/-- What `_get` reads from its surroundings at one call: the elapsed time and the
CPU share as the floating-point computations of `_get` deliver them, the `int`
fields of `mallinfo()`, `ru_maxrss` of `getrusage`, and the contents of
`/proc/<pid>/statm` (`none` when the file cannot be opened). -/
structure ProcEnv (D : Type) where
  elapsed_ms : D
  cpu_usage : D
  arena : Int
  uordblks : Int
  hblkhd : Int
  ru_maxrss : Int
  statm : Option (List Char)

/-- The method `_get`.  An exception of `std::stoi` leaves the method. -/
def _get {D F : Type} (env : ProcEnv D) (L : ResourceUsageLogger D F) :
    Except StoiError (ResourceUsageLogger D F) :=
  let r : Resources D :=
    { L._resources with
      elasped_ms := env.elapsed_ms
      cpu_usage := env.cpu_usage
      mem_arena_KB := to_uint64 (env.arena >>> 10)
      mem_in_use_KB := to_uint64 (env.uordblks >>> 10)
      mem_mmap_KB := to_uint64 (env.hblkhd >>> 10)
      mem_max_rss_KB := to_uint64 env.ru_maxrss }
  match env.statm with
  | some text =>
    match stoi (first_token text) with
    | Except.error e => Except.error e
    | Except.ok pages =>
      Except.ok { L with _resources :=
        { r with mem_virtual_KB := ((to_uint64 pages * to_uint64 L._pagesize) % 2 ^ 64) >>> 10 } }
  | none => Except.ok { L with _resources := { r with mem_virtual_KB := to_uint64 (-1) } }

/-! ## The sampler thread, `start` and `stop` -/

/-- The statement a sampler thread (the lambda of `start`) executes next. -/
inductive SamplerPc
  | check
  | sleep
  | header
  | baseline
  | get
  | print
  | inc
  | done
  | exited
deriving DecidableEq

/-- A sampler thread: its next statement and its counter `i`. -/
structure Sampler where
  pc : SamplerPc
  i : Nat
deriving DecidableEq

/-- One statement of the sampler thread.  `check` is the test `while (this->_log)`,
`sleep` the call `sleep_until`, `header` the test `i == 1` with `_print_header`,
`baseline` the `_print` of the same branch, then `_get()`, `_print(m_file)`, `i++`
and `_done = true`. -/
def sampler_step {D F : Type} (fmt : FloatText D F) (env : ProcEnv D) (t : Sampler)
    (L : ResourceUsageLogger D F) : Except StoiError (Sampler × ResourceUsageLogger D F) :=
  match t.pc with
  | SamplerPc.check =>
    if L._log then Except.ok ({ t with pc := SamplerPc.sleep }, L)
    else Except.ok ({ t with pc := SamplerPc.exited }, L)
  | SamplerPc.sleep => Except.ok ({ t with pc := SamplerPc.header }, L)
  | SamplerPc.header =>
    if t.i = 1 then
      Except.ok ({ t with pc := SamplerPc.baseline },
                 { L with m_file := L.m_file.write (_print_header L) })
    else Except.ok ({ t with pc := SamplerPc.get }, L)
  | SamplerPc.baseline =>
    Except.ok ({ t with pc := SamplerPc.get }, { L with m_file := L.m_file.write (_print fmt L) })
  | SamplerPc.get =>
    match _get env L with
    | Except.error e => Except.error e
    | Except.ok L1 => Except.ok ({ t with pc := SamplerPc.print }, L1)
  | SamplerPc.print =>
    Except.ok ({ t with pc := SamplerPc.inc }, { L with m_file := L.m_file.write (_print fmt L) })
  | SamplerPc.inc => Except.ok ({ t with pc := SamplerPc.done, i := t.i + 1 }, L)
  | SamplerPc.done => Except.ok ({ t with pc := SamplerPc.check }, { L with _done := true })
  | SamplerPc.exited => Except.ok (t, L)

/-- The method `start`; the second component tells whether the sampler thread is
created. -/
def start {D F : Type} (open_ok : Bool) (L : ResourceUsageLogger D F) :
    ResourceUsageLogger D F × Bool :=
  let f := L.m_file.open open_ok
  if !f.is_open then
    ({ L with
       m_file := f
       cout := L.cout ++ "[ResourceUsageLogger]: Error. Could not open file ".toList
                 ++ L.m_filename ++ "\n[ResourceUsageLogger]: Not logging.\n".toList }, false)
  else
    ({ L with
       m_file := f
       cout := L.cout ++ "[ResourceUsageLogger]: Logging to ".toList ++ L.m_filename ++ ['\n']
       _log := true
       _done := false }, true)

/-- Where the calling thread stands: outside of `stop`, in the loop
`while (_done == false)`, or before `m_file.close()`. -/
inductive CallerPc
  | idle
  | stop_wait
  | stop_close
deriving DecidableEq

/-- The process: the logger, the sampler threads created so far, the calling
thread, and whether an uncaught exception has terminated the process. -/
structure Process (D F : Type) where
  logger : ResourceUsageLogger D F
  samplers : List Sampler
  caller : CallerPc
  terminated : Bool

/-- The process right after the constructor. -/
def Process.new {D F : Type} (fmt : FloatText D F) (filename : List Char) (pid : Nat)
    (pagesize : Int) : Process D F where
  logger := ResourceUsageLogger.new fmt filename pid pagesize
  samplers := []
  caller := CallerPc.idle
  terminated := false

/-- The atomic actions of the process: calls of the calling thread (`stop` in three
parts: the store `_log = false`, one test of the wait loop, `m_file.close()` with the
return) and one statement of the `k`-th sampler thread. -/
inductive Action (D F : Type)
  | start (open_ok : Bool)
  | set_system_info (pubs subs : Int) (frequency : F)
  | stop_enter
  | stop_poll
  | stop_close
  | tick (k : Nat) (env : ProcEnv D)

/-- One action.  An action whose thread is not at that point changes nothing. -/
def step {D F : Type} (fmt : FloatText D F) (P : Process D F) (a : Action D F) : Process D F :=
  if P.terminated then P
  else
    match a with
    | Action.start open_ok =>
      if P.caller = CallerPc.idle then
        let r := start open_ok P.logger
        { P with
          logger := r.1
          samplers := if r.2 then P.samplers ++ [{ pc := SamplerPc.check, i := 1 }]
                      else P.samplers }
      else P
    | Action.set_system_info pubs subs frequency =>
      if P.caller = CallerPc.idle then
        { P with logger := set_system_info pubs subs frequency P.logger }
      else P
    | Action.stop_enter =>
      if P.caller = CallerPc.idle then
        { P with logger := { P.logger with _log := false }, caller := CallerPc.stop_wait }
      else P
    | Action.stop_poll =>
      if P.caller = CallerPc.stop_wait then
        (if P.logger._done = false then P else { P with caller := CallerPc.stop_close })
      else P
    | Action.stop_close =>
      if P.caller = CallerPc.stop_close then
        { P with logger := { P.logger with m_file := P.logger.m_file.close },
                 caller := CallerPc.idle }
      else P
    | Action.tick k env =>
      match P.samplers.get? k with
      | none => P
      | some t =>
        match sampler_step fmt env t P.logger with
        | Except.error _ => { P with terminated := true }
        | Except.ok r => { P with logger := r.2, samplers := P.samplers.set k r.1 }

/-- A run: the actions in order. -/
def exec {D F : Type} (fmt : FloatText D F) (P : Process D F) (as : List (Action D F)) :
    Process D F :=
  as.foldl (step fmt) P

/-- Whether some call of `set_system_info` in the run was accepted: made by the
calling thread of a live process while `_log` was false. -/
def system_info_accepted {D F : Type} (fmt : FloatText D F) :
    Process D F → List (Action D F) → Bool
  | _, [] => false
  | P, a :: as =>
    (match a with
      | Action.set_system_info _ _ _ =>
        !P.terminated && decide (P.caller = CallerPc.idle) && !P.logger._log
      | _ => false)
    || system_info_accepted fmt (step fmt P a) as

/-- The range of the type `int`. -/
def IsInt (z : Int) : Prop := -2147483648 ≤ z ∧ z ≤ 2147483647

/-- The seven resource fields of a row, as `_print` writes them before the test of
`m_got_system_info`. -/
def resource_fields {D F : Type} (fmt : FloatText D F) (L : ResourceUsageLogger D F) :
    List Char :=
  put_left wide_space (fmt.general (wide_space - 1) (fmt.round L._resources.elasped_ms))
  ++ put_left narrow_space (fmt.general 2 L._resources.cpu_usage)
  ++ put_left wide_space (put_nat L._resources.mem_arena_KB)
  ++ put_left wide_space (put_nat L._resources.mem_in_use_KB)
  ++ put_left wide_space (put_nat L._resources.mem_mmap_KB)
  ++ put_left wide_space (put_nat L._resources.mem_max_rss_KB)
  ++ put_left wide_space (put_nat L._resources.mem_virtual_KB)

/-- A logger on natural-number values, fresh from its constructor. -/
def fresh : ResourceUsageLogger Nat Nat :=
  ResourceUsageLogger.new natText "resources.txt".toList 4242 4096

/-- A process on natural-number values, fresh from the constructor of its logger. -/
def fresh_process : Process Nat Nat :=
  Process.new natText "resources.txt".toList 4242 4096

/-- A reading of the surroundings of `_get`: 1000 ms, 3 %, a heap of 132 KB, and a
virtual size of 1234 pages. -/
def reading : ProcEnv Nat where
  elapsed_ms := 1000
  cpu_usage := 3
  arena := 135168
  uordblks := 74000
  hblkhd := 0
  ru_maxrss := 3500
  statm := some "1234 200 100 1 0 50 0\n".toList

/-- A session on natural-number values: `start` succeeds and the sampler thread
executes the eight statements of its first iteration. -/
def first_iteration : List (Action Nat Nat) :=
  Action.start true :: List.replicate 8 (Action.tick 0 reading)

/-- The first iteration; the sampler then finds `_log` true and wakes from
`sleep_until` in its second iteration; then the caller runs `stop` to its return. -/
def early_stop : List (Action Nat Nat) :=
  first_iteration ++ [Action.tick 0 reading, Action.tick 0 reading]
    ++ [Action.stop_enter, Action.stop_poll, Action.stop_close]

/-- After `early_stop`, the sampler finishes its second iteration (`i == 1` fails,
`_get()`, `_print(m_file)`, `i++`, `_done = true`) and leaves the loop. -/
def late_row : List (Action Nat Nat) :=
  early_stop ++ List.replicate 6 (Action.tick 0 reading)

/-- A call of `set_system_info` right after a successful `start`, followed by the
first iteration of the sampler. -/
def info_while_logging : List (Action Nat Nat) :=
  [Action.start true, Action.set_system_info 3 2 10] ++ List.replicate 8 (Action.tick 0 reading)

/-- A reading in which `/proc/<pid>/statm` reports `2 ^ 31` pages (8 TiB with pages
of 4096 bytes). -/
def huge_reading : ProcEnv Nat :=
  { reading with statm := some "2147483648 200 100 1 0 50 0\n".toList }

/-- The number of lines the sampler thread has inserted into `m_file` when it stands
at statement `pc` with counter `i`: none before the header, then header, line of
zeros, and one row for each `_print(m_file)` executed; with `i - 1` completed
iterations and the sampler between two rows, that is `i + 1`. -/
def lines_written (t : Sampler) : Nat :=
  if t.i = 1 then
    match t.pc with
    | SamplerPc.baseline => 1
    | SamplerPc.get => 2
    | SamplerPc.print => 2
    | SamplerPc.inc => 3
    | _ => 0
  else
    match t.pc with
    | SamplerPc.inc => t.i + 2
    | SamplerPc.baseline => t.i
    | _ => t.i + 1

/-- A run without a further call of `start`. -/
def NoStart {D F : Type} (as : List (Action D F)) : Prop :=
  ∀ a ∈ as, ∀ ok, a ≠ Action.start ok

/-- The text made of the given lines, each closed by a line feed. -/
def join_lines (ls : List (List Char)) : List Char :=
  (ls.map (fun l => l ++ ['\n'])).flatten

/-- The state of the file of a session while it is open: the stream has not failed,
there is one sampler thread, and the file holds the complete lines that thread has
written so far, the first of which is a header. -/
def FileOk {D F : Type} (P : Process D F) : Prop :=
  P.logger.m_file.is_open = true →
    P.logger.m_file.failed = false
    ∧ ∃ t ls, P.samplers = [t] ∧ 1 ≤ t.i
      ∧ P.logger.m_file.content = join_lines ls
      ∧ (∀ l ∈ ls, '\n' ∉ l)
      ∧ ls.length = lines_written t
      ∧ (∀ l, ls.head? = some l → ∃ L0 : ResourceUsageLogger D F, _print_header L0 = l ++ ['\n'])

/-- After `early_stop`, the caller starts a new session on the same logger, and the
sampler thread of the first session executes the next three statements of its second
iteration (`i == 1` fails, `_get()`, `_print(m_file)`). -/
def restart_after_early_stop : List (Action Nat Nat) :=
  early_stop ++ [Action.start true] ++ List.replicate 3 (Action.tick 0 reading)

/-- The flags as the calling thread leaves them: in `stop` the flag `_log` is false,
before `m_file.close()` the flag `_done` is true, and with no file open `_log` is
false and `_done` is true. -/
def Settled {D F : Type} (P : Process D F) : Prop :=
  (P.caller = CallerPc.stop_close → P.logger._done = true)
  ∧ (P.caller ≠ CallerPc.idle → P.logger._log = false)
  ∧ (P.logger.m_file.is_open = false → P.logger._log = false ∧ P.logger._done = true)

/-- Whether logging is active after a run, told from the calls alone: some call of
`start` has created the sampler thread and `stop` has not been entered since; `b` is
the answer before the run. -/
def logging_active {D F : Type} (fmt : FloatText D F) :
    Bool → Process D F → List (Action D F) → Bool
  | b, _, [] => b
  | b, P, a :: as =>
    logging_active fmt
      (match a with
        | Action.start open_ok =>
          if !P.terminated && decide (P.caller = CallerPc.idle) && (start open_ok P.logger).2
          then true else b
        | Action.stop_enter =>
          if !P.terminated && decide (P.caller = CallerPc.idle) then false else b
        | _ => b)
      (step fmt P a) as

/-- A run without a call of `set_system_info`. -/
def NoSystemInfo {D F : Type} (as : List (Action D F)) : Prop :=
  ∀ a ∈ as, ∀ pubs subs frequency, a ≠ Action.set_system_info pubs subs frequency

/-- A reading at which `/proc/<pid>/statm` cannot be opened. -/
def reading_without_statm : ProcEnv Nat :=
  { reading with statm := none }

/-- A session with system info: `set_system_info(3, 2, 10)` on the fresh logger, a
successful `start`, and the first six statements of the sampler thread (through the
`_print(m_file)` that follows `_get()`), at the given reading. -/
def session_with_info (env : ProcEnv Nat) : List (Action Nat Nat) :=
  [Action.set_system_info 3 2 10, Action.start true] ++ List.replicate 6 (Action.tick 0 env)

end performance_metrics

namespace performance_test

/-- The batch overload `System::add_node(const std::vector<std::shared_ptr<NodeT>>&)`:
the range-based loop over `nodes` that calls the single-node overload.  The
single-node overload is declared in `system.hpp` and defined elsewhere; it enters as
the parameter `add_node`, a transition of the system state that may throw. -/
def add_node_batch {σ ε N : Type} (add_node : N → σ → Except ε σ) :
    List N → σ → Except ε σ
  | [], s => Except.ok s
  | node :: rest, s =>
    match add_node node s with
    | Except.error e => Except.error e
    | Except.ok s1 => add_node_batch add_node rest s1

/-- The wording of the specification for the batch overload: the single-node
`add_node` is called on the element at each position once, position 0 first, and a
call that throws ends the sequence. -/
def add_each_in_order {σ ε N : Type} (add_node : N → σ → Except ε σ) (nodes : List N)
    (s : σ) : Except ε σ :=
  (List.range nodes.length).foldl
    (fun acc k =>
      match acc, nodes.get? k with
      | Except.ok s1, some node => add_node node s1
      | other, _ => other)
    (Except.ok s)

end performance_test

namespace performance_test_factory

/-- A latency tracker of one endpoint, named by its topic or service. -/
structure Tracker where
  endpoint : String
deriving DecidableEq

/-- A node as the test reads it: `get_node_name()`, `pub_trackers()`,
`sub_trackers()` and `client_trackers()`. -/
structure PerformanceNode where
  node_name : String
  pub_trackers : List Tracker
  sub_trackers : List Tracker
  client_trackers : List Tracker
deriving DecidableEq

/-- Modelled from the spec: one declared node of a topology description (the JSON
layout is not among the sources): its name and the topics or services of its declared
publishers, subscribers and clients. -/
structure NodeDescription where
  node_name : String
  publishers : List String
  subscribers : List String
  clients : List String
deriving DecidableEq

/-- Modelled from the spec: adding a publisher to a node (`TemplateFactory`, not
among the sources) attaches one more publisher tracker to it. -/
def add_publisher (topic : String) (n : PerformanceNode) : PerformanceNode :=
  { n with pub_trackers := n.pub_trackers ++ [{ endpoint := topic }] }

/-- Modelled from the spec: adding a subscriber to a node (`TemplateFactory`, not
among the sources) attaches one more subscriber tracker to it. -/
def add_subscriber (topic : String) (n : PerformanceNode) : PerformanceNode :=
  { n with sub_trackers := n.sub_trackers ++ [{ endpoint := topic }] }

/-- Modelled from the spec: adding a client to a node (`TemplateFactory`, not among
the sources) attaches one more client tracker to it. -/
def add_client (service : String) (n : PerformanceNode) : PerformanceNode :=
  { n with client_trackers := n.client_trackers ++ [{ endpoint := service }] }

/-- Modelled from the spec: the node built for one declared node
(`TemplateFactory`, not among the sources): a node of the declared name, to which
the declared publishers, subscribers and clients are added one by one. -/
def create_node (d : NodeDescription) : PerformanceNode :=
  let n0 : PerformanceNode :=
    { node_name := d.node_name, pub_trackers := [], sub_trackers := [], client_trackers := [] }
  let n1 := d.publishers.foldl (fun n t => add_publisher t n) n0
  let n2 := d.subscribers.foldl (fun n t => add_subscriber t n) n1
  d.clients.foldl (fun n t => add_client t n) n2

/-- Modelled from the spec: `TemplateFactory::parse_topology_from_json` (not among
the sources), on a decoded topology description: one node per declared node, in the
declared order. -/
def parse_topology_from_json : List NodeDescription → List PerformanceNode
  | [] => []
  | d :: ds => create_node d :: parse_topology_from_json ds

/-- Modelled from the spec: the description in `files/test_architecture.json` (not
among the sources): `node_0` with two publishers, `node_1` with one subscriber,
`node_2` with one client. -/
def test_architecture : List NodeDescription :=
  [ { node_name := "node_0", publishers := ["topic_a", "topic_b"], subscribers := [],
      clients := [] },
    { node_name := "node_1", publishers := [], subscribers := ["topic_a"], clients := [] },
    { node_name := "node_2", publishers := [], subscribers := [], clients := ["service_a"] } ]

/-- What the test reads of a node: name and the numbers of publisher, subscriber and
client trackers. -/
def exposed (n : PerformanceNode) : String × Nat × Nat × Nat :=
  (n.node_name, n.pub_trackers.length, n.sub_trackers.length, n.client_trackers.length)

/-- What a description declares for a node: name and the numbers of publishers,
subscribers and clients. -/
def declared (d : NodeDescription) : String × Nat × Nat × Nat :=
  (d.node_name, d.publishers.length, d.subscribers.length, d.clients.length)

end performance_test_factory

/-! # Theorems -/

namespace performance_metrics

/-! ## Columns of a text -/

theorem wordsAux_append_noSpace (t : List Char) (ht : NoSpace t) :
    ∀ (r cur : List Char), wordsAux (t ++ r) cur = wordsAux r (cur ++ t) := by
  induction t with
  | nil => intro r cur; simp
  | cons c t ih =>
    intro r cur
    have hc : isSpace c = false := ht c (List.mem_cons_self c t)
    have ht1 : NoSpace t := fun d hd => ht d (List.mem_cons_of_mem c hd)
    have h := ih ht1 r (cur ++ [c])
    simp only [List.append_assoc, List.singleton_append] at h
    simp only [List.cons_append, wordsAux, hc, Bool.false_eq_true, if_false]
    exact h

theorem wordsAux_fill (k : Nat) (r : List Char) :
    wordsAux (List.replicate k ' ' ++ r) [] = wordsAux r [] := by
  induction k with
  | zero => simp
  | succ k ih =>
    have hs : isSpace ' ' = true := by decide
    simp only [List.replicate_succ, List.cons_append, wordsAux, hs, if_true]
    exact ih

theorem wordsAux_fill_succ (k : Nat) (r cur : List Char) (hcur : cur ≠ []) :
    wordsAux (List.replicate (k + 1) ' ' ++ r) cur = cur :: wordsAux r [] := by
  have hs : isSpace ' ' = true := by decide
  have h := wordsAux_fill k r
  simp only [List.replicate_succ, List.cons_append, wordsAux, hs, if_true, hcur, if_false]
  rw [← h]
  rfl

/-- A column shorter than its field is read back whole, whatever follows. -/
theorem wordsAux_put_left (w : Nat) (t r : List Char) (ht : Token t) (hw : t.length < w) :
    wordsAux (put_left w t ++ r) [] = t :: wordsAux r [] := by
  unfold put_left
  rw [List.append_assoc, wordsAux_append_noSpace t ht.2]
  obtain ⟨k, hk⟩ : ∃ k, w - t.length = k + 1 := ⟨w - t.length - 1, by omega⟩
  rw [hk, List.nil_append, wordsAux_fill_succ k r t ht.1]

/-- The last column of a line is read back whole even when it fills its field. -/
theorem wordsAux_put_left_newline (w : Nat) (t : List Char) (ht : Token t) :
    wordsAux (put_left w t ++ ['\n']) [] = [t] := by
  unfold put_left
  rw [List.append_assoc, wordsAux_append_noSpace t ht.2, List.nil_append]
  have hn : isSpace '\n' = true := by decide
  cases h : w - t.length with
  | zero => simp [wordsAux, hn, ht.1]
  | succ k =>
    rw [wordsAux_fill_succ k _ t ht.1]
    simp [wordsAux, hn]

/-- A text that ends in a fill character closes its last column: the columns of what
follows are read on their own. -/
theorem wordsAux_append_space (x y : List Char) :
    ∀ cur, wordsAux (x ++ ' ' :: y) cur = wordsAux (x ++ [' ']) cur ++ wordsAux y [] := by
  have hs : isSpace ' ' = true := by decide
  induction x with
  | nil =>
    intro cur
    by_cases hcur : cur = [] <;> simp [wordsAux, hs, hcur]
  | cons c x ih =>
    intro cur
    by_cases hc : isSpace c = true
    · by_cases hcur : cur = [] <;> simp [wordsAux, hc, hcur, ih]
    · simp [wordsAux, hc, ih]

/-! ## Decimal text -/

theorem isSpace_digitChar (d : Nat) : isSpace (Nat.digitChar d) = false := by
  have hbig : ∀ k, Nat.digitChar (k + 16) = '*' := by
    intro k
    simp [Nat.digitChar]
  rcases Nat.lt_or_ge d 16 with h | h
  · interval_cases d <;> decide
  · obtain ⟨k, rfl⟩ : ∃ k, d = k + 16 := ⟨d - 16, by omega⟩
    rw [hbig]
    decide

theorem toDigitsCore_noSpace :
    ∀ (fuel n : Nat) (ds : List Char), NoSpace ds → NoSpace (Nat.toDigitsCore 10 fuel n ds) := by
  intro fuel
  induction fuel with
  | zero => intro n ds h; simpa [Nat.toDigitsCore] using h
  | succ fuel ih =>
    intro n ds h
    have hcons : NoSpace (Nat.digitChar (n % 10) :: ds) := by
      intro c hc
      rcases List.mem_cons.mp hc with rfl | hc
      · exact isSpace_digitChar _
      · exact h c hc
    simp only [Nat.toDigitsCore]
    split
    · exact hcons
    · exact ih _ _ hcons

theorem toDigitsCore_ne_nil :
    ∀ (fuel n : Nat) (ds : List Char), ds ≠ [] → Nat.toDigitsCore 10 fuel n ds ≠ [] := by
  intro fuel
  induction fuel with
  | zero => intro n ds h; simpa [Nat.toDigitsCore] using h
  | succ fuel ih =>
    intro n ds _
    simp only [Nat.toDigitsCore]
    split
    · simp
    · exact ih _ _ (by simp)

theorem put_nat_token (n : Nat) : Token (put_nat n) := by
  refine ⟨?_, ?_⟩
  · unfold put_nat Nat.toDigits
    simp only [Nat.toDigitsCore]
    split
    · simp
    · exact toDigitsCore_ne_nil _ _ _ (by simp)
  · exact toDigitsCore_noSpace _ _ _ (by intro c hc; simp at hc)

theorem put_nat_length (n e : Nat) (he : 0 < e) (h : n < 10 ^ e) : (put_nat n).length ≤ e :=
  Nat.toDigitsCore_length 10 (by decide) (n + 1) n e h he

theorem put_int_token (z : Int) : Token (put_int z) := by
  cases z with
  | ofNat n => exact put_nat_token n
  | negSucc n =>
    refine ⟨by simp [put_int], ?_⟩
    intro c hc
    simp only [put_int, List.mem_cons] at hc
    rcases hc with rfl | hc
    · decide
    · exact (put_nat_token (n + 1)).2 c hc

theorem put_int_length (z : Int) (hz : IsInt z) : (put_int z).length < wide_space := by
  obtain ⟨h1, h2⟩ := hz
  cases z with
  | ofNat n =>
    have hn : n < 10 ^ 10 := by
      have : (n : Int) ≤ 2147483647 := h2
      omega
    have := put_nat_length n 10 (by decide) hn
    simp only [put_int, wide_space]
    omega
  | negSucc n =>
    have hn : n + 1 < 10 ^ 10 := by
      have : Int.negSucc n = -((n : Int) + 1) := rfl
      omega
    have := put_nat_length (n + 1) 10 (by decide) hn
    simp only [put_int, wide_space, List.length_cons]
    omega

/-! ## What the actions leave alone -/

theorem get_frame {D F : Type} (env : ProcEnv D) (L L1 : ResourceUsageLogger D F)
    (h : _get env L = Except.ok L1) :
    L1.m_got_system_info = L.m_got_system_info ∧ L1.m_pubs = L.m_pubs
    ∧ L1.m_subs = L.m_subs ∧ L1.m_frequency = L.m_frequency ∧ L1._log = L._log
    ∧ L1._done = L._done ∧ L1.m_file = L.m_file := by
  unfold _get at h
  split at h
  · split at h
    · exact absurd h (by simp)
    · cases h; simp
  · cases h; simp

theorem sampler_step_frame {D F : Type} (fmt : FloatText D F) (env : ProcEnv D) (t : Sampler)
    (L : ResourceUsageLogger D F) (r : Sampler × ResourceUsageLogger D F)
    (h : sampler_step fmt env t L = Except.ok r) :
    r.2.m_got_system_info = L.m_got_system_info ∧ r.2.m_pubs = L.m_pubs
    ∧ r.2.m_subs = L.m_subs ∧ r.2.m_frequency = L.m_frequency ∧ r.2._log = L._log := by
  unfold sampler_step at h
  split at h
  · split at h <;> (cases h; simp)
  · cases h; simp
  · split at h <;> (cases h; simp)
  · cases h; simp
  · split at h
    · exact absurd h (by simp)
    · rename_i L1 hg
      cases h
      have := get_frame env L L1 hg
      simp [this]
  · cases h; simp
  · cases h; simp
  · cases h; simp
  · cases h; simp

theorem start_frame {D F : Type} (open_ok : Bool) (L : ResourceUsageLogger D F) :
    (start open_ok L).1.m_got_system_info = L.m_got_system_info
    ∧ (start open_ok L).1.m_pubs = L.m_pubs ∧ (start open_ok L).1.m_subs = L.m_subs
    ∧ (start open_ok L).1.m_frequency = L.m_frequency := by
  unfold start
  cases h : (L.m_file.open open_ok).is_open <;> simp [h]

/-- The flag `m_got_system_info` after one action: it was set before, or the action
is an accepted call of `set_system_info`. -/
theorem step_got_system_info {D F : Type} (fmt : FloatText D F) (P : Process D F)
    (a : Action D F) :
    (step fmt P a).logger.m_got_system_info
      = (P.logger.m_got_system_info || system_info_accepted fmt P [a]) := by
  unfold system_info_accepted step
  by_cases ht : P.terminated = true
  · cases a <;> simp [ht, system_info_accepted]
  · have ht0 : P.terminated = false := by simpa using ht
    cases a with
    | start open_ok =>
      by_cases hc : P.caller = CallerPc.idle
      · simp [ht0, hc, system_info_accepted, (start_frame open_ok P.logger).1]
      · simp [ht0, hc, system_info_accepted]
    | set_system_info pubs subs frequency =>
      by_cases hc : P.caller = CallerPc.idle
      · cases hl : P.logger._log <;> simp [ht0, hc, hl, set_system_info, system_info_accepted]
      · simp [ht0, hc, system_info_accepted]
    | stop_enter =>
      by_cases hc : P.caller = CallerPc.idle <;> simp [ht0, hc, system_info_accepted]
    | stop_poll =>
      by_cases hc : P.caller = CallerPc.stop_wait
      · cases hd : P.logger._done <;> simp [ht0, hc, hd, system_info_accepted]
      · simp [ht0, hc, system_info_accepted]
    | stop_close =>
      by_cases hc : P.caller = CallerPc.stop_close <;> simp [ht0, hc, system_info_accepted]
    | tick k env =>
      simp only [ht0, system_info_accepted, Bool.false_eq_true, if_false, Bool.or_false]
      split
      · rfl
      · rename_i t _
        split
        · rfl
        · rename_i r hr
          exact (sampler_step_frame fmt env t P.logger r hr).1

theorem exec_got_system_info {D F : Type} (fmt : FloatText D F) (as : List (Action D F)) :
    ∀ P : Process D F,
      (exec fmt P as).logger.m_got_system_info
        = (P.logger.m_got_system_info || system_info_accepted fmt P as) := by
  induction as with
  | nil => intro P; simp [exec, system_info_accepted]
  | cons a as ih =>
    intro P
    have h1 := ih (step fmt P a)
    have h2 := step_got_system_info fmt P a
    simp only [exec, List.foldl_cons] at h1 ⊢
    rw [h1, h2]
    cases a <;> simp [system_info_accepted, Bool.or_assoc]

/-- The header is one of two texts, chosen by `m_got_system_info`. -/
theorem print_header_cases {D F : Type} (L : ResourceUsageLogger D F) :
    _print_header L
      = "time[ms]       cpu[%]    arena[KB]      in_use[KB]     mmap[KB]       rss[KB]        vsz[KB]        ".toList
        ++ (if L.m_got_system_info then "pubs           subs           frequency      ".toList
            else [])
        ++ ['\n'] := by
  cases h : L.m_got_system_info
  · simp only [_print_header, h]; decide
  · simp only [_print_header, h]; decide

/-! ## The header -/

/-- C2: after any run of the process from the constructor, the header written by
`_print_header`, split on whitespace, is `time[ms] cpu[%] arena[KB] in_use[KB]
mmap[KB] rss[KB] vsz[KB]` in that order, followed by `pubs subs frequency` exactly
when a call of `set_system_info` was accepted earlier in the run; and the header is
the sequence of these labels, each followed by the spaces that fill its field of 15
characters (10 for `cpu[%]`), and a line feed. -/
theorem print_header_columns {D F : Type} (fmt : FloatText D F) (filename : List Char)
    (pid : Nat) (pagesize : Int) (as : List (Action D F)) :
    words (_print_header (exec fmt (Process.new fmt filename pid pagesize) as).logger)
      = ["time[ms]".toList, "cpu[%]".toList, "arena[KB]".toList, "in_use[KB]".toList,
         "mmap[KB]".toList, "rss[KB]".toList, "vsz[KB]".toList]
        ++ (if system_info_accepted fmt (Process.new fmt filename pid pagesize) as
            then ["pubs".toList, "subs".toList, "frequency".toList] else [])
    ∧ _print_header (exec fmt (Process.new fmt filename pid pagesize) as).logger
      = (([(15, "time[ms]".toList), (10, "cpu[%]".toList), (15, "arena[KB]".toList),
           (15, "in_use[KB]".toList), (15, "mmap[KB]".toList), (15, "rss[KB]".toList),
           (15, "vsz[KB]".toList)]
          ++ (if system_info_accepted fmt (Process.new fmt filename pid pagesize) as
              then [(15, "pubs".toList), (15, "subs".toList), (15, "frequency".toList)]
              else [])).map
            (fun f : Nat × List Char => f.2 ++ List.replicate (f.1 - f.2.length) ' ')).flatten
        ++ ['\n'] := by
  have hflag := exec_got_system_info fmt as (Process.new fmt filename pid pagesize)
  have hnew : (Process.new fmt filename pid pagesize).logger.m_got_system_info = false := rfl
  rw [hnew, Bool.false_or] at hflag
  rw [print_header_cases, hflag]
  cases system_info_accepted fmt (Process.new fmt filename pid pagesize) as
  · exact ⟨by decide, by decide⟩
  · exact ⟨by decide, by decide⟩

/-! ## The rows -/

/-- With the system info set and a virtual size below `10 ^ 14` KB, the row ends
with the columns of `m_pubs`, `m_subs` and `m_frequency`, whatever the fields before
the virtual size are. -/
theorem words_print_tail {D F : Type} (fmt : FloatText D F) (L : ResourceUsageLogger D F)
    (hf : fmt.WellFormed) (hg : L.m_got_system_info = true)
    (hv : L._resources.mem_virtual_KB < 10 ^ 14) (hp : IsInt L.m_pubs) (hs : IsInt L.m_subs) :
    ∃ front, words (_print fmt L)
      = front ++ [put_int L.m_pubs, put_int L.m_subs, fmt.fixedf 2 L.m_frequency] := by
  have hlen : (put_nat L._resources.mem_virtual_KB).length < wide_space := by
    have := put_nat_length _ 14 (by decide) hv
    simp only [wide_space]
    omega
  obtain ⟨k, hk⟩ : ∃ k, wide_space - (put_nat L._resources.mem_virtual_KB).length = k + 1 :=
    ⟨wide_space - (put_nat L._resources.mem_virtual_KB).length - 1, by omega⟩
  have hshape : ∃ x, _print fmt L
      = x ++ ' ' :: (put_left wide_space (put_int L.m_pubs)
          ++ (put_left wide_space (put_int L.m_subs)
          ++ (put_left wide_space (fmt.fixedf 2 L.m_frequency) ++ ['\n']))) := by
    refine ⟨put_left wide_space (fmt.general (wide_space - 1) (fmt.round L._resources.elasped_ms))
      ++ put_left narrow_space (fmt.general 2 L._resources.cpu_usage)
      ++ put_left wide_space (put_nat L._resources.mem_arena_KB)
      ++ put_left wide_space (put_nat L._resources.mem_in_use_KB)
      ++ put_left wide_space (put_nat L._resources.mem_mmap_KB)
      ++ put_left wide_space (put_nat L._resources.mem_max_rss_KB)
      ++ (put_nat L._resources.mem_virtual_KB ++ List.replicate k ' '), ?_⟩
    have hv1 : put_left wide_space (put_nat L._resources.mem_virtual_KB)
        = (put_nat L._resources.mem_virtual_KB ++ List.replicate k ' ') ++ [' '] := by
      rw [put_left, hk, List.replicate_succ', List.append_assoc]
    unfold _print
    rw [hv1, hg]
    simp
  obtain ⟨x, hx⟩ := hshape
  refine ⟨wordsAux (x ++ [' ']) [], ?_⟩
  unfold words
  rw [hx, wordsAux_append_space,
    wordsAux_put_left _ _ _ (put_int_token _) (put_int_length _ hp),
    wordsAux_put_left _ _ _ (put_int_token _) (put_int_length _ hs),
    wordsAux_put_left_newline _ _ (hf.2 _ _)]

/-! ## The system info in the rows of a session -/

/-- C3 fails on the code: `_get` stores `-1` in the unsigned field `mem_virtual_KB`
when `/proc/<pid>/statm` cannot be opened.  In the session `session_with_info`
(system info 3, 2, 10 accepted, `start` succeeds, first iteration of the sampler) read
without `statm`, the field holds `18446744073709551615`; its twenty digits fill more
than the fifteen characters of the column, no fill separates it from `pubs`, and the
row has nine columns and ends with `184467440737095516153 2 10.00` instead of
`3 2 10.00`.  The line of zeros of the same session, and the row of the same session
read with `statm`, end with the three fields. -/
theorem session_row_without_statm :
    (exec natText fresh_process (session_with_info reading_without_statm)).terminated = false
    ∧ ((exec natText fresh_process
          (session_with_info reading_without_statm)).logger.m_got_system_info,
       (exec natText fresh_process (session_with_info reading_without_statm)).logger.m_pubs,
       (exec natText fresh_process (session_with_info reading_without_statm)).logger.m_subs,
       (exec natText fresh_process
          (session_with_info reading_without_statm)).logger.m_frequency)
      = (true, 3, 2, 10)
    ∧ (exec natText fresh_process
        (session_with_info reading_without_statm)).logger._resources.mem_virtual_KB
      = 18446744073709551615
    ∧ (lines (exec natText fresh_process
        (session_with_info reading_without_statm)).logger.m_file.content).map words
      = [["time[ms]".toList, "cpu[%]".toList, "arena[KB]".toList, "in_use[KB]".toList,
          "mmap[KB]".toList, "rss[KB]".toList, "vsz[KB]".toList, "pubs".toList,
          "subs".toList, "frequency".toList],
         ["0".toList, "0".toList, "0".toList, "0".toList, "0".toList, "0".toList, "0".toList,
          "3".toList, "2".toList, "10.00".toList],
         ["1000".toList, "3".toList, "132".toList, "72".toList, "0".toList, "3500".toList,
          "184467440737095516153".toList, "2".toList, "10.00".toList]]
    ∧ (lines (exec natText fresh_process
        (session_with_info reading)).logger.m_file.content).map words
      = [["time[ms]".toList, "cpu[%]".toList, "arena[KB]".toList, "in_use[KB]".toList,
          "mmap[KB]".toList, "rss[KB]".toList, "vsz[KB]".toList, "pubs".toList,
          "subs".toList, "frequency".toList],
         ["0".toList, "0".toList, "0".toList, "0".toList, "0".toList, "0".toList, "0".toList,
          "3".toList, "2".toList, "10.00".toList],
         ["1000".toList, "3".toList, "132".toList, "72".toList, "0".toList, "3500".toList,
          "4936".toList, "3".toList, "2".toList, "10.00".toList]] := by
  refine ⟨by rfl, by rfl, by rfl, by rfl, by rfl⟩

/-! ## `set_system_info` -/

/-- A `start` that creates the sampler thread sets `_log`; one that does not leaves it. -/
theorem start_log {D F : Type} (open_ok : Bool) (L : ResourceUsageLogger D F) :
    (start open_ok L).1._log = (if (start open_ok L).2 then true else L._log) := by
  unfold start
  cases h : (L.m_file.open open_ok).is_open <;> simp [h]

/-- The flag `_log` after one action, told from the calls: set by a `start` that
creates the sampler thread, cleared on entry to `stop`, kept otherwise. -/
theorem step_log {D F : Type} (fmt : FloatText D F) (P : Process D F) (a : Action D F) :
    (step fmt P a).logger._log = logging_active fmt P.logger._log P [a] := by
  by_cases ht : P.terminated = true
  · have hstep : step fmt P a = P := by simp [step, ht]
    rw [hstep]
    cases a <;> simp [logging_active, ht]
  · have ht0 : P.terminated = false := by simpa using ht
    cases a with
    | start ok =>
      by_cases hc : P.caller = CallerPc.idle
      · simp only [step, ht0, hc, logging_active, Bool.false_eq_true, if_false, if_true,
          start_log, Bool.not_false, Bool.true_and, decide_True]
      · simp [step, ht0, hc, logging_active]
    | set_system_info pubs subs frequency =>
      by_cases hc : P.caller = CallerPc.idle
      · cases hl : P.logger._log <;> simp [step, ht0, hc, hl, set_system_info, logging_active]
      · simp [step, ht0, hc, logging_active]
    | stop_enter =>
      by_cases hc : P.caller = CallerPc.idle <;> simp [step, ht0, hc, logging_active]
    | stop_poll =>
      by_cases hc : P.caller = CallerPc.stop_wait
      · cases hd : P.logger._done <;> simp [step, ht0, hc, hd, logging_active]
      · simp [step, ht0, hc, logging_active]
    | stop_close =>
      by_cases hc : P.caller = CallerPc.stop_close <;> simp [step, ht0, hc, logging_active]
    | tick k env =>
      simp only [step, ht0, logging_active, Bool.false_eq_true, if_false]
      split
      · rfl
      · rename_i t _
        split
        · rfl
        · rename_i r hr
          exact (sampler_step_frame fmt env t P.logger r hr).2.2.2.2

/-- After every run the flag `_log` tells whether logging is active. -/
theorem exec_log {D F : Type} (fmt : FloatText D F) (as : List (Action D F)) :
    ∀ P : Process D F, (exec fmt P as).logger._log = logging_active fmt P.logger._log P as := by
  induction as with
  | nil => intro P; rfl
  | cons a as ih =>
    intro P
    have h1 := ih (step fmt P a)
    have h2 := step_log fmt P a
    simp only [exec, List.foldl_cons] at h1 ⊢
    rw [h1, h2]
    rfl

/-- C4 (amended): in every state the process reaches from the constructor in which
the call can be made, a call of `set_system_info` returns like any other call: the
process is not terminated, the caller goes on, the sampler threads and the file are
untouched.  While logging is active (a `start` has created the sampler thread and
`stop` has not been entered since) the call is rejected with a message on
`std::cout`, logging stays active, and the stored `pubs`, `subs`, `frequency` and the
flag are unchanged; when logging is not active the call stores the three values and
sets the flag. -/
theorem set_system_info_guard {D F : Type} (fmt : FloatText D F) (filename : List Char)
    (pid : Nat) (pagesize : Int) (as : List (Action D F)) (pubs subs : Int) (frequency : F)
    (hc : (exec fmt (Process.new fmt filename pid pagesize) as).caller = CallerPc.idle)
    (ht : (exec fmt (Process.new fmt filename pid pagesize) as).terminated = false) :
    (exec fmt (Process.new fmt filename pid pagesize)
      (as ++ [Action.set_system_info pubs subs frequency])).terminated = false
    ∧ (exec fmt (Process.new fmt filename pid pagesize)
        (as ++ [Action.set_system_info pubs subs frequency])).caller = CallerPc.idle
    ∧ (exec fmt (Process.new fmt filename pid pagesize)
        (as ++ [Action.set_system_info pubs subs frequency])).samplers
      = (exec fmt (Process.new fmt filename pid pagesize) as).samplers
    ∧ (exec fmt (Process.new fmt filename pid pagesize)
        (as ++ [Action.set_system_info pubs subs frequency])).logger.m_file
      = (exec fmt (Process.new fmt filename pid pagesize) as).logger.m_file
    ∧ (logging_active fmt false (Process.new fmt filename pid pagesize) as = true →
        (exec fmt (Process.new fmt filename pid pagesize)
          (as ++ [Action.set_system_info pubs subs frequency])).logger._log = true
        ∧ (exec fmt (Process.new fmt filename pid pagesize)
            (as ++ [Action.set_system_info pubs subs frequency])).logger.m_pubs
          = (exec fmt (Process.new fmt filename pid pagesize) as).logger.m_pubs
        ∧ (exec fmt (Process.new fmt filename pid pagesize)
            (as ++ [Action.set_system_info pubs subs frequency])).logger.m_subs
          = (exec fmt (Process.new fmt filename pid pagesize) as).logger.m_subs
        ∧ (exec fmt (Process.new fmt filename pid pagesize)
            (as ++ [Action.set_system_info pubs subs frequency])).logger.m_frequency
          = (exec fmt (Process.new fmt filename pid pagesize) as).logger.m_frequency
        ∧ (exec fmt (Process.new fmt filename pid pagesize)
            (as ++ [Action.set_system_info pubs subs frequency])).logger.m_got_system_info
          = (exec fmt (Process.new fmt filename pid pagesize) as).logger.m_got_system_info
        ∧ (exec fmt (Process.new fmt filename pid pagesize)
            (as ++ [Action.set_system_info pubs subs frequency])).logger.cout
          = (exec fmt (Process.new fmt filename pid pagesize) as).logger.cout ++
            "[ResourceUsageLogger]: You have to set system info before starting the logger!\n".toList)
    ∧ (logging_active fmt false (Process.new fmt filename pid pagesize) as = false →
        (exec fmt (Process.new fmt filename pid pagesize)
          (as ++ [Action.set_system_info pubs subs frequency])).logger._log = false
        ∧ (exec fmt (Process.new fmt filename pid pagesize)
            (as ++ [Action.set_system_info pubs subs frequency])).logger.m_pubs = pubs
        ∧ (exec fmt (Process.new fmt filename pid pagesize)
            (as ++ [Action.set_system_info pubs subs frequency])).logger.m_subs = subs
        ∧ (exec fmt (Process.new fmt filename pid pagesize)
            (as ++ [Action.set_system_info pubs subs frequency])).logger.m_frequency = frequency
        ∧ (exec fmt (Process.new fmt filename pid pagesize)
            (as ++ [Action.set_system_info pubs subs frequency])).logger.m_got_system_info = true
        ∧ (exec fmt (Process.new fmt filename pid pagesize)
            (as ++ [Action.set_system_info pubs subs frequency])).logger.cout
          = (exec fmt (Process.new fmt filename pid pagesize) as).logger.cout) := by
  have hlog := exec_log fmt as (Process.new fmt filename pid pagesize)
  have hnew : (Process.new fmt filename pid pagesize).logger._log = false := rfl
  rw [hnew] at hlog
  rw [← hlog]
  simp only [exec, List.foldl_append, List.foldl_cons, List.foldl_nil] at hc ht ⊢
  generalize List.foldl (step fmt) (Process.new fmt filename pid pagesize) as = P at *
  cases hl : P.logger._log <;> simp [step, hc, ht, hl, set_system_info]

/-- Witness of `set_system_info_guard`: the call during the session `first_iteration`,
where it is rejected, and the call after `early_stop`, where it stores 3, 2, 10. -/
theorem set_system_info_guard_witness :
    (exec natText fresh_process first_iteration).caller = CallerPc.idle
    ∧ (exec natText fresh_process first_iteration).terminated = false
    ∧ logging_active natText false fresh_process first_iteration = true
    ∧ (exec natText fresh_process
        (first_iteration ++ [Action.set_system_info 3 2 10])).terminated = false
    ∧ (exec natText fresh_process
        (first_iteration ++ [Action.set_system_info 3 2 10])).logger._log = true
    ∧ (exec natText fresh_process
        (first_iteration ++ [Action.set_system_info 3 2 10])).logger.m_pubs
      = (exec natText fresh_process first_iteration).logger.m_pubs
    ∧ (exec natText fresh_process
        (first_iteration ++ [Action.set_system_info 3 2 10])).logger.m_got_system_info
      = (exec natText fresh_process first_iteration).logger.m_got_system_info
    ∧ (exec natText fresh_process early_stop).caller = CallerPc.idle
    ∧ (exec natText fresh_process early_stop).terminated = false
    ∧ logging_active natText false fresh_process early_stop = false
    ∧ (exec natText fresh_process
        (early_stop ++ [Action.set_system_info 3 2 10])).logger.m_pubs = 3
    ∧ (exec natText fresh_process
        (early_stop ++ [Action.set_system_info 3 2 10])).logger.m_got_system_info = true :=
  ⟨rfl, rfl, rfl,
    (set_system_info_guard natText "resources.txt".toList 4242 4096 first_iteration 3 2 10
      rfl rfl).1,
    ((set_system_info_guard natText "resources.txt".toList 4242 4096 first_iteration 3 2 10
      rfl rfl).2.2.2.2.1 rfl).1,
    ((set_system_info_guard natText "resources.txt".toList 4242 4096 first_iteration 3 2 10
      rfl rfl).2.2.2.2.1 rfl).2.1,
    ((set_system_info_guard natText "resources.txt".toList 4242 4096 first_iteration 3 2 10
      rfl rfl).2.2.2.2.1 rfl).2.2.2.2.1,
    rfl, rfl, rfl,
    ((set_system_info_guard natText "resources.txt".toList 4242 4096 early_stop 3 2 10
      rfl rfl).2.2.2.2.2 rfl).2.1,
    ((set_system_info_guard natText "resources.txt".toList 4242 4096 early_stop 3 2 10
      rfl rfl).2.2.2.2.2 rfl).2.2.2.2.1⟩

/-- C4 as stated fails: a call of `set_system_info` while logging is active is not
fatal.  After a successful `start`, the call returns, the process is not terminated,
logging stays active, and the sampler writes the header, the line of zeros and its
first row as if the call had not been made. -/
theorem set_system_info_not_fatal :
    (exec natText fresh_process info_while_logging).terminated = false
    ∧ (exec natText fresh_process info_while_logging).caller = CallerPc.idle
    ∧ (exec natText fresh_process info_while_logging).logger._log = true
    ∧ (exec natText fresh_process info_while_logging).samplers
        = [{ pc := SamplerPc.check, i := 2 }]
    ∧ (lines (exec natText fresh_process info_while_logging).logger.m_file.content).length = 3 := by
  refine ⟨by rfl, by rfl, by rfl, by rfl, by rfl⟩

/-! ## The system info in every session -/

/-- An action other than `set_system_info` leaves the system info alone. -/
theorem step_system_info_frame {D F : Type} (fmt : FloatText D F) (P : Process D F)
    (a : Action D F) (ha : ∀ pubs subs frequency, a ≠ Action.set_system_info pubs subs frequency) :
    (step fmt P a).logger.m_got_system_info = P.logger.m_got_system_info
    ∧ (step fmt P a).logger.m_pubs = P.logger.m_pubs
    ∧ (step fmt P a).logger.m_subs = P.logger.m_subs
    ∧ (step fmt P a).logger.m_frequency = P.logger.m_frequency := by
  by_cases ht : P.terminated = true
  · have hstep : step fmt P a = P := by simp [step, ht]
    rw [hstep]
    exact ⟨rfl, rfl, rfl, rfl⟩
  · have ht0 : P.terminated = false := by simpa using ht
    cases a with
    | start ok =>
      by_cases hc : P.caller = CallerPc.idle
      · simp only [step, ht0, hc, Bool.false_eq_true, if_false, if_true]
        exact start_frame ok P.logger
      · simp [step, ht0, hc]
    | set_system_info pubs subs frequency => exact absurd rfl (ha pubs subs frequency)
    | stop_enter =>
      by_cases hc : P.caller = CallerPc.idle <;> simp [step, ht0, hc]
    | stop_poll =>
      by_cases hc : P.caller = CallerPc.stop_wait
      · cases hd : P.logger._done <;> simp [step, ht0, hc, hd]
      · simp [step, ht0, hc]
    | stop_close =>
      by_cases hc : P.caller = CallerPc.stop_close <;> simp [step, ht0, hc]
    | tick k env =>
      simp only [step, ht0, Bool.false_eq_true, if_false]
      split
      · exact ⟨rfl, rfl, rfl, rfl⟩
      · rename_i t _
        split
        · exact ⟨rfl, rfl, rfl, rfl⟩
        · rename_i r hr
          have h := sampler_step_frame fmt env t P.logger r hr
          exact ⟨h.1, h.2.1, h.2.2.1, h.2.2.2.1⟩

/-- A run without `set_system_info` leaves the system info alone. -/
theorem exec_system_info_frame {D F : Type} (fmt : FloatText D F) (as : List (Action D F))
    (has : NoSystemInfo as) :
    ∀ P : Process D F,
      (exec fmt P as).logger.m_got_system_info = P.logger.m_got_system_info
      ∧ (exec fmt P as).logger.m_pubs = P.logger.m_pubs
      ∧ (exec fmt P as).logger.m_subs = P.logger.m_subs
      ∧ (exec fmt P as).logger.m_frequency = P.logger.m_frequency := by
  induction as with
  | nil => intro P; exact ⟨rfl, rfl, rfl, rfl⟩
  | cons a as ih =>
    intro P
    have h1 := ih (fun b hb => has b (List.mem_cons_of_mem a hb)) (step fmt P a)
    have h2 := step_system_info_frame fmt P a (has a (List.mem_cons_self a as))
    simp only [exec, List.foldl_cons] at h1 ⊢
    exact ⟨h1.1.trans h2.1, h1.2.1.trans h2.2.1, h1.2.2.1.trans h2.2.2.1,
      h1.2.2.2.trans h2.2.2.2⟩

/-- In every session: once `set_system_info(pubs, subs, frequency)` has been accepted,
the row `_print` writes at any later point of the run (after `start`, after any
number of `_get`) ends with the columns of `pubs`, `subs` and `frequency`, as long as
no other call of `set_system_info` is made and the virtual size at that point is
below `10 ^ 14` KB. -/
theorem session_rows_end_with_system_info {D F : Type} (fmt : FloatText D F)
    (hf : fmt.WellFormed) (filename : List Char) (pid : Nat) (pagesize : Int)
    (before after : List (Action D F)) (pubs subs : Int) (frequency : F)
    (hc : (exec fmt (Process.new fmt filename pid pagesize) before).caller = CallerPc.idle)
    (ht : (exec fmt (Process.new fmt filename pid pagesize) before).terminated = false)
    (hl : logging_active fmt false (Process.new fmt filename pid pagesize) before = false)
    (hafter : NoSystemInfo after) (hp : IsInt pubs) (hs : IsInt subs)
    (hv : (exec fmt (Process.new fmt filename pid pagesize)
            (before ++ Action.set_system_info pubs subs frequency :: after)).logger._resources.mem_virtual_KB
          < 10 ^ 14) :
    ∃ front,
      words (_print fmt (exec fmt (Process.new fmt filename pid pagesize)
              (before ++ Action.set_system_info pubs subs frequency :: after)).logger)
        = front ++ [put_int pubs, put_int subs, fmt.fixedf 2 frequency] := by
  have hlog := exec_log fmt before (Process.new fmt filename pid pagesize)
  have hnew : (Process.new fmt filename pid pagesize).logger._log = false := rfl
  rw [hnew, hl] at hlog
  have hfr := exec_system_info_frame fmt after hafter
    (step fmt (exec fmt (Process.new fmt filename pid pagesize) before)
      (Action.set_system_info pubs subs frequency))
  have hrun : exec fmt (Process.new fmt filename pid pagesize)
      (before ++ Action.set_system_info pubs subs frequency :: after)
      = exec fmt (step fmt (exec fmt (Process.new fmt filename pid pagesize) before)
          (Action.set_system_info pubs subs frequency)) after := by
    simp [exec, List.foldl_append]
  rw [hrun] at hv ⊢
  have hset : (step fmt (exec fmt (Process.new fmt filename pid pagesize) before)
      (Action.set_system_info pubs subs frequency)).logger.m_got_system_info = true
      ∧ (step fmt (exec fmt (Process.new fmt filename pid pagesize) before)
          (Action.set_system_info pubs subs frequency)).logger.m_pubs = pubs
      ∧ (step fmt (exec fmt (Process.new fmt filename pid pagesize) before)
          (Action.set_system_info pubs subs frequency)).logger.m_subs = subs
      ∧ (step fmt (exec fmt (Process.new fmt filename pid pagesize) before)
          (Action.set_system_info pubs subs frequency)).logger.m_frequency = frequency := by
    simp [step, hc, ht, set_system_info, hlog]
  obtain ⟨g1, g2, g3, g4⟩ := hfr
  rw [hset.1] at g1
  rw [hset.2.1] at g2
  rw [hset.2.2.1] at g3
  rw [hset.2.2.2] at g4
  have h := words_print_tail fmt _ hf g1 hv (by rw [g2]; exact hp) (by rw [g3]; exact hs)
  rw [g2, g3, g4] at h
  exact h

/-- In every run in which no call of `set_system_info` was accepted, the row `_print`
writes is the seven resource fields and the end of line. -/
theorem session_rows_without_system_info {D F : Type} (fmt : FloatText D F)
    (filename : List Char) (pid : Nat) (pagesize : Int) (as : List (Action D F))
    (h : system_info_accepted fmt (Process.new fmt filename pid pagesize) as = false) :
    _print fmt (exec fmt (Process.new fmt filename pid pagesize) as).logger
      = resource_fields fmt (exec fmt (Process.new fmt filename pid pagesize) as).logger
        ++ ['\n'] := by
  have hflag := exec_got_system_info fmt as (Process.new fmt filename pid pagesize)
  have hnew : (Process.new fmt filename pid pagesize).logger.m_got_system_info = false := rfl
  rw [hnew, h] at hflag
  simp [_print, resource_fields, hflag]

/-! ## `start` without a file: what it leaves alone -/

/-- A `start` whose `open` fails changes nothing but the text on `std::cout` and the
error state of the stream: in particular `_log`, `_done`, the sampler threads and the
contents of the file are as before. -/
theorem start_without_file_frame {D F : Type} (fmt : FloatText D F) (P : Process D F)
    (hc : P.caller = CallerPc.idle) (ht : P.terminated = false)
    (ho : P.logger.m_file.is_open = false) :
    (step fmt P (Action.start false)).logger._log = P.logger._log
    ∧ (step fmt P (Action.start false)).logger._done = P.logger._done
    ∧ (step fmt P (Action.start false)).samplers = P.samplers
    ∧ (step fmt P (Action.start false)).logger.m_file.content = P.logger.m_file.content
    ∧ (step fmt P (Action.start false)).logger.m_file.is_open = false
    ∧ (step fmt P (Action.start false)).logger._resources = P.logger._resources
    ∧ (step fmt P (Action.start false)).terminated = false
    ∧ (step fmt P (Action.start false)).caller = CallerPc.idle := by
  simp [step, hc, ht, start, FileStream.open, ho]

/-! ## The sampler and `stop` -/

/-- C9 fails on the code: `_done` is set at the end of the first iteration and never
cleared, so a `stop` that arrives while the sampler is in a later iteration finds
`_done` true at once.  In the run `early_stop` the call has returned and the file is
closed while the sampler stands after `sleep_until` of its second iteration; it then
executes `_get()` and `_print(m_file)`: the insertion is made on the closed stream,
which fails, and the row does not reach the file.  When the caller has started a new
session in between (`restart_after_early_stop`), the row of the old sampler is the
first line of the new file, before any header. -/
theorem stop_returns_before_sampler :
    (exec natText fresh_process early_stop).caller = CallerPc.idle
    ∧ (exec natText fresh_process early_stop).logger.m_file.is_open = false
    ∧ (exec natText fresh_process early_stop).logger.m_file.failed = false
    ∧ (exec natText fresh_process early_stop).samplers = [{ pc := SamplerPc.header, i := 2 }]
    ∧ (exec natText fresh_process
        (early_stop ++ [Action.tick 0 reading, Action.tick 0 reading])).samplers
        = [{ pc := SamplerPc.print, i := 2 }]
    ∧ (exec natText fresh_process
        (early_stop ++ [Action.tick 0 reading, Action.tick 0 reading,
                        Action.tick 0 reading])).samplers
        = [{ pc := SamplerPc.inc, i := 2 }]
    ∧ (exec natText fresh_process
        (early_stop ++ [Action.tick 0 reading, Action.tick 0 reading,
                        Action.tick 0 reading])).logger.m_file.failed = true
    ∧ (exec natText fresh_process
        (early_stop ++ [Action.tick 0 reading, Action.tick 0 reading,
                        Action.tick 0 reading])).logger.m_file.content
        = (exec natText fresh_process early_stop).logger.m_file.content
    ∧ (lines (exec natText fresh_process restart_after_early_stop).logger.m_file.content).map
        words
        = [["1000".toList, "3".toList, "132".toList, "72".toList, "0".toList, "3500".toList,
            "4936".toList]] := by
  refine ⟨by rfl, by rfl, by rfl, by rfl, by rfl, by rfl, by rfl, by rfl, by rfl⟩

/-- C8 fails on the code, by the defect of C9: in the run `late_row` the sampler
completes two iterations and leaves the loop, and the file has received three lines
(header, line of zeros, first row) instead of four, the second row being written
after `stop` has closed the file. -/
theorem two_iterations_three_lines :
    (exec natText fresh_process late_row).samplers = [{ pc := SamplerPc.exited, i := 3 }]
    ∧ (exec natText fresh_process late_row).terminated = false
    ∧ (lines (exec natText fresh_process late_row).logger.m_file.content).length = 3
    ∧ (lines (exec natText fresh_process late_row).logger.m_file.content).map words
        = [["time[ms]".toList, "cpu[%]".toList, "arena[KB]".toList, "in_use[KB]".toList,
            "mmap[KB]".toList, "rss[KB]".toList, "vsz[KB]".toList],
           ["0".toList, "0".toList, "0".toList, "0".toList, "0".toList, "0".toList,
            "0".toList],
           ["1000".toList, "3".toList, "132".toList, "72".toList, "0".toList, "3500".toList,
            "4936".toList]] := by
  refine ⟨by rfl, by rfl, by rfl, by rfl⟩

/-! ## The virtual size -/

/-- C10 fails on the code: the page count is parsed by `std::stoi`, whose result is
an `int`.  With `2147483648` pages in `/proc/<pid>/statm` the call throws
`std::out_of_range`, `_get` does not complete, and the exception, uncaught in the
sampler thread, terminates the process; with `2147483647` pages `_get` stores
`2147483647 * 4096 / 1024`. -/
theorem get_page_count_out_of_range :
    stoi (first_token "2147483648 200 100 1 0 50 0\n".toList)
      = Except.error StoiError.out_of_range
    ∧ (_get huge_reading fresh).map (fun L => L._resources.mem_virtual_KB)
      = Except.error StoiError.out_of_range
    ∧ (exec natText fresh_process
        (Action.start true :: List.replicate 4 (Action.tick 0 reading))).samplers
        = [{ pc := SamplerPc.get, i := 1 }]
    ∧ (exec natText fresh_process
        (Action.start true :: List.replicate 4 (Action.tick 0 reading)
          ++ [Action.tick 0 huge_reading])).terminated = true
    ∧ (_get { reading with statm := some "2147483647 200 100 1 0 50 0\n".toList } fresh).map
        (fun L => L._resources.mem_virtual_KB)
      = Except.ok (2147483647 * 4096 / 1024) := by
  refine ⟨by rfl, by rfl, by rfl, by rfl, by rfl⟩

/-! ## Page counts in the range of `int` -/

theorem digitChar_value (k : Nat) (hk : k < 10) : (Nat.digitChar k).toNat - 48 = k := by
  interval_cases k <;> rfl

theorem digitChar_isDigit (k : Nat) (hk : k < 10) : (Nat.digitChar k).isDigit = true := by
  interval_cases k <;> rfl

theorem digitChar_not_sign (k : Nat) (hk : k < 10) :
    Nat.digitChar k ≠ '-' ∧ Nat.digitChar k ≠ '+' := by
  interval_cases k <;> exact ⟨by decide, by decide⟩

theorem toDigitsCore_value :
    ∀ (fuel n : Nat) (acc : List Char), n < fuel →
      (Nat.toDigitsCore 10 fuel n acc).foldl (fun a c => 10 * a + (c.toNat - 48)) 0
        = acc.foldl (fun a c => 10 * a + (c.toNat - 48)) n := by
  intro fuel
  induction fuel with
  | zero => intro n acc h; omega
  | succ fuel ih =>
    intro n acc h
    have hd := digitChar_value (n % 10) (Nat.mod_lt _ (by decide))
    simp only [Nat.toDigitsCore]
    split
    · rename_i h0
      have hn : n % 10 = n := by omega
      simp only [List.foldl_cons, Nat.mul_zero, Nat.zero_add]
      rw [hd, hn]
    · rename_i h0
      rw [ih (n / 10) _ (by omega)]
      simp only [List.foldl_cons, hd]
      congr 1
      omega

theorem digits_value_put_nat (n : Nat) : digits_value (put_nat n) = n := by
  unfold digits_value put_nat Nat.toDigits
  rw [toDigitsCore_value _ _ _ (Nat.lt_succ_self n)]
  rfl

theorem toDigitsCore_isDigit :
    ∀ (fuel n : Nat) (ds : List Char), (∀ c ∈ ds, c.isDigit = true) →
      ∀ c ∈ Nat.toDigitsCore 10 fuel n ds, c.isDigit = true := by
  intro fuel
  induction fuel with
  | zero => intro n ds h; simpa [Nat.toDigitsCore] using h
  | succ fuel ih =>
    intro n ds h
    have hcons : ∀ c ∈ Nat.digitChar (n % 10) :: ds, c.isDigit = true := by
      intro c hc
      rcases List.mem_cons.mp hc with rfl | hc
      · exact digitChar_isDigit _ (Nat.mod_lt _ (by decide))
      · exact h c hc
    simp only [Nat.toDigitsCore]
    split
    · exact hcons
    · exact ih _ _ hcons

theorem put_nat_isDigit (n : Nat) : ∀ c ∈ put_nat n, c.isDigit = true :=
  toDigitsCore_isDigit _ _ _ (by intro c hc; simp at hc)

theorem isDigit_not_sign (c : Char) (h : c.isDigit = true) : c ≠ '-' ∧ c ≠ '+' := by
  constructor <;> (rintro rfl; exact absurd h (by decide))


/-- `std::stoi` reads back the decimal text of a value in the range of `int`. -/
theorem stoi_put_nat (p : Nat) (hp : p ≤ 2147483647) : stoi (put_nat p) = Except.ok (p : Int) := by
  have htok := put_nat_token p
  have hdig := put_nat_isDigit p
  obtain ⟨c, cs, hcs⟩ : ∃ c cs, put_nat p = c :: cs := by
    cases h : put_nat p with
    | nil => exact absurd h htok.1
    | cons c cs => exact ⟨c, cs, rfl⟩
  have hc : c.isDigit = true := hdig c (by rw [hcs]; exact List.mem_cons_self c cs)
  have hsp : isSpace c = false := htok.2 c (by rw [hcs]; exact List.mem_cons_self c cs)
  have hdrop : (put_nat p).dropWhile isSpace = put_nat p := by
    rw [hcs, List.dropWhile_cons, hsp]; rfl
  have hsign : stoi_sign (put_nat p) = (false, put_nat p) := by
    rw [hcs]
    simp [stoi_sign, (isDigit_not_sign c hc).1, (isDigit_not_sign c hc).2]
  have htake : (put_nat p).takeWhile Char.isDigit = put_nat p := by
    rw [List.takeWhile_eq_self_iff]
    exact hdig
  unfold stoi
  simp only [hdrop, hsign, htake, htok.1, if_false, digits_value_put_nat, Bool.false_eq_true]
  have h1 : ¬ ((p : Int) < -2147483648 ∨ (2147483647 : Int) < (p : Int)) := by omega
  simp only [h1, if_false]

theorem first_token_put_nat (p : Nat) (rest : List Char) :
    first_token (put_nat p ++ ' ' :: rest) = put_nat p := by
  have htok := put_nat_token p
  obtain ⟨c, cs, hcs⟩ : ∃ c cs, put_nat p = c :: cs := by
    cases h : put_nat p with
    | nil => exact absurd h htok.1
    | cons c cs => exact ⟨c, cs, rfl⟩
  have hsp : isSpace c = false := htok.2 c (by rw [hcs]; exact List.mem_cons_self c cs)
  have hdrop : (put_nat p ++ ' ' :: rest).dropWhile isSpace = put_nat p ++ ' ' :: rest := by
    rw [hcs, List.cons_append, List.dropWhile_cons, hsp]; rfl
  unfold first_token
  rw [hdrop, List.takeWhile_append_of_pos (fun a ha => by simp [htok.2 a ha])]
  have hs : isSpace ' ' = true := by decide
  simp [hs]

/-- For a page count in the range of `int` and a page size in the range of `int`,
`_get` completes and stores the product of the two, divided by 1024. -/
theorem get_virtual_size {D F : Type} (env : ProcEnv D) (L : ResourceUsageLogger D F)
    (p : Nat) (rest : List Char) (hstatm : env.statm = some (put_nat p ++ ' ' :: rest))
    (hp : p ≤ 2147483647) (hps : 0 ≤ L._pagesize ∧ L._pagesize ≤ 2147483647) :
    (_get env L).map (fun L1 => L1._resources.mem_virtual_KB)
      = Except.ok (p * L._pagesize.toNat / 1024) := by
  obtain ⟨q, hq⟩ : ∃ q : Nat, L._pagesize = (q : Int) := ⟨L._pagesize.toNat, by omega⟩
  have hq1 : q ≤ 2147483647 := by omega
  unfold _get
  simp only [hstatm, first_token_put_nat, stoi_put_nat p hp, Except.map, hq]
  have h1 : to_uint64 (p : Int) = p := by
    unfold to_uint64
    omega
  have h2 : to_uint64 (q : Int) = q := by
    unfold to_uint64
    omega
  have h3 : p * q < 2 ^ 64 := by
    calc p * q ≤ 2147483647 * 2147483647 := Nat.mul_le_mul hp hq1
      _ < 2 ^ 64 := by decide
  simp only [h1, h2, Nat.mod_eq_of_lt h3, Nat.shiftRight_eq_div_pow, Int.toNat_ofNat]

/-! ## The file of a session while it is open -/

theorem linesAux_line (l : List Char) (hl : '\n' ∉ l) :
    ∀ (rest cur : List Char), linesAux (l ++ '\n' :: rest) cur = (cur ++ l) :: linesAux rest [] := by
  induction l with
  | nil => intro rest cur; simp [linesAux]
  | cons c l ih =>
    intro rest cur
    have hc : c ≠ '\n' := fun h => hl (by rw [h]; exact List.mem_cons_self _ _)
    have hl1 : '\n' ∉ l := fun h => hl (List.mem_cons_of_mem c h)
    have h := ih hl1 rest (cur ++ [c])
    simp only [List.append_assoc, List.singleton_append] at h
    simp only [List.cons_append, linesAux, hc, if_false]
    exact h

theorem lines_join_lines (ls : List (List Char)) (h : ∀ l ∈ ls, '\n' ∉ l) :
    lines (join_lines ls) = ls := by
  unfold lines
  induction ls with
  | nil => rfl
  | cons l ls ih =>
    have h1 : '\n' ∉ l := h l (List.mem_cons_self l ls)
    have h2 : ∀ x ∈ ls, '\n' ∉ x := fun x hx => h x (List.mem_cons_of_mem l hx)
    have : join_lines (l :: ls) = l ++ '\n' :: join_lines ls := by
      simp [join_lines]
    rw [this, linesAux_line l h1, ih h2]
    simp

theorem join_lines_append (ls : List (List Char)) (l : List Char) :
    join_lines (ls ++ [l]) = join_lines ls ++ (l ++ ['\n']) := by
  simp [join_lines]

theorem noSpace_no_newline (s : List Char) (h : NoSpace s) : '\n' ∉ s := by
  intro hm
  have := h _ hm
  exact absurd this (by decide)

theorem put_left_no_newline (w : Nat) (s : List Char) (h : NoSpace s) : '\n' ∉ put_left w s := by
  intro hm
  simp only [put_left, List.mem_append] at hm
  rcases hm with hm | hm
  · exact noSpace_no_newline s h hm
  · have := List.eq_of_mem_replicate hm
    exact absurd this (by decide)

theorem print_line {D F : Type} (fmt : FloatText D F) (hf : fmt.WellFormed)
    (L : ResourceUsageLogger D F) : ∃ row, _print fmt L = row ++ ['\n'] ∧ '\n' ∉ row := by
  refine ⟨_, rfl, ?_⟩
  have hn := fun n => put_left_no_newline wide_space (put_nat n) (put_nat_token n).2
  have hi := fun z => put_left_no_newline wide_space (put_int z) (put_int_token z).2
  have hg := fun w p d => put_left_no_newline w (fmt.general p d) (hf.1 p d).2
  have hx := fun w p f => put_left_no_newline w (fmt.fixedf p f) (hf.2 p f).2
  simp only [List.mem_append, not_or]
  refine ⟨⟨⟨⟨⟨⟨⟨hg _ _ _, hg _ _ _⟩, hn _⟩, hn _⟩, hn _⟩, hn _⟩, hn _⟩, ?_⟩
  split
  · simp only [List.mem_append, not_or]
    exact ⟨⟨hi _, hi _⟩, hx _ _ _⟩
  · simp

theorem print_header_line {D F : Type} (L : ResourceUsageLogger D F) :
    ∃ row, _print_header L = row ++ ['\n'] ∧ '\n' ∉ row := by
  cases h : L.m_got_system_info
  · exact ⟨_, by simp only [_print_header, h]; rfl, by decide⟩
  · exact ⟨_, by simp only [_print_header, h]; rfl, by decide⟩

theorem write_open (f : FileStream) (s : List Char) (ho : f.is_open = true)
    (hf : f.failed = false) :
    (f.write s).is_open = true ∧ (f.write s).failed = false
    ∧ (f.write s).content = f.content ++ s := by
  simp [FileStream.write, ho, hf]

theorem sampler_step_file {D F : Type} (fmt : FloatText D F) (hf : fmt.WellFormed)
    (env : ProcEnv D) (t : Sampler) (L : ResourceUsageLogger D F)
    (r : Sampler × ResourceUsageLogger D F)
    (hst : sampler_step fmt env t L = Except.ok r)
    (hopen : L.m_file.is_open = true) (hfail : L.m_file.failed = false) (hi : 1 ≤ t.i) :
    r.2.m_file.is_open = true ∧ r.2.m_file.failed = false ∧ 1 ≤ r.1.i
    ∧ ((r.2.m_file.content = L.m_file.content ∧ lines_written r.1 = lines_written t)
       ∨ (∃ row, '\n' ∉ row ∧ r.2.m_file.content = L.m_file.content ++ (row ++ ['\n'])
            ∧ lines_written r.1 = lines_written t + 1
            ∧ (lines_written t = 0 →
                ∃ L0 : ResourceUsageLogger D F, _print_header L0 = row ++ ['\n']))) := by
  obtain ⟨pc, i⟩ := t
  simp only at hi
  have hw := fun s => write_open L.m_file s hopen hfail
  cases pc
  case check =>
    simp only [sampler_step] at hst
    split at hst <;> (cases hst; refine ⟨hopen, hfail, hi, Or.inl ⟨rfl, ?_⟩⟩; simp [lines_written])
  case sleep =>
    simp only [sampler_step] at hst
    cases hst
    exact ⟨hopen, hfail, hi, Or.inl ⟨rfl, by simp [lines_written]⟩⟩
  case header =>
    simp only [sampler_step] at hst
    split at hst
    · rename_i h1
      cases hst
      obtain ⟨row, hrow, hnl⟩ := print_header_line L
      refine ⟨(hw _).1, (hw _).2.1, hi, Or.inr ⟨row, hnl, ?_, ?_, ?_⟩⟩
      · simp only [(hw _).2.2, hrow]
      · simp [lines_written, h1]
      · intro _; exact ⟨L, hrow⟩
    · rename_i h1
      cases hst
      exact ⟨hopen, hfail, hi, Or.inl ⟨rfl, by simp [lines_written, h1]⟩⟩
  case baseline =>
    simp only [sampler_step] at hst
    cases hst
    obtain ⟨row, hrow, hnl⟩ := print_line fmt hf L
    refine ⟨(hw _).1, (hw _).2.1, hi, Or.inr ⟨row, hnl, ?_, ?_, ?_⟩⟩
    · simp only [(hw _).2.2, hrow]
    · by_cases h1 : i = 1 <;> simp [lines_written, h1]
    · intro h0
      by_cases h1 : i = 1
      · simp [lines_written, h1] at h0
      · simp [lines_written, h1] at h0
        omega
  case get =>
    simp only [sampler_step] at hst
    split at hst
    · exact absurd hst (by simp)
    · rename_i L1 hg
      cases hst
      have hfr := get_frame env L L1 hg
      have hm : L1.m_file = L.m_file := hfr.2.2.2.2.2.2
      refine ⟨by rw [hm]; exact hopen, by rw [hm]; exact hfail, hi, Or.inl ⟨by rw [hm], ?_⟩⟩
      by_cases h1 : i = 1 <;> simp [lines_written, h1]
  case print =>
    simp only [sampler_step] at hst
    cases hst
    obtain ⟨row, hrow, hnl⟩ := print_line fmt hf L
    refine ⟨(hw _).1, (hw _).2.1, hi, Or.inr ⟨row, hnl, ?_, ?_, ?_⟩⟩
    · simp only [(hw _).2.2, hrow]
    · by_cases h1 : i = 1 <;> simp [lines_written, h1]
    · intro h0
      by_cases h1 : i = 1 <;> simp [lines_written, h1] at h0
  case inc =>
    simp only [sampler_step] at hst
    cases hst
    refine ⟨hopen, hfail, by simp, Or.inl ⟨rfl, ?_⟩⟩
    by_cases h1 : i = 1
    · simp [lines_written, h1]
    · have : i + 1 ≠ 1 := by omega
      simp [lines_written, h1, this]
  case done =>
    simp only [sampler_step] at hst
    cases hst
    exact ⟨hopen, hfail, hi, Or.inl ⟨rfl, by by_cases h1 : i = 1 <;> simp [lines_written, h1]⟩⟩
  case exited =>
    simp only [sampler_step] at hst
    cases hst
    exact ⟨hopen, hfail, hi, Or.inl ⟨rfl, rfl⟩⟩

theorem sampler_step_is_open {D F : Type} (fmt : FloatText D F) (env : ProcEnv D) (t : Sampler)
    (L : ResourceUsageLogger D F) (r : Sampler × ResourceUsageLogger D F)
    (hst : sampler_step fmt env t L = Except.ok r) :
    r.2.m_file.is_open = L.m_file.is_open := by
  have hw : ∀ s, (L.m_file.write s).is_open = L.m_file.is_open := by
    intro s
    unfold FileStream.write
    split <;> rfl
  unfold sampler_step at hst
  split at hst
  · split at hst <;> (cases hst; rfl)
  · cases hst; rfl
  · split at hst <;> (cases hst; first | exact hw _ | rfl)
  · cases hst; exact hw _
  · split at hst
    · exact absurd hst (by simp)
    · rename_i L1 hg
      cases hst
      rw [(get_frame env L L1 hg).2.2.2.2.2.2]
  · cases hst; exact hw _
  · cases hst; rfl
  · cases hst; rfl
  · cases hst; rfl

theorem step_fileOk {D F : Type} (fmt : FloatText D F) (hf : fmt.WellFormed) (P : Process D F)
    (a : Action D F) (hns : ∀ ok, a ≠ Action.start ok) (h : FileOk P) :
    FileOk (step fmt P a) := by
  by_cases ht : P.terminated = true
  · have hstep : step fmt P a = P := by simp [step, ht]
    rw [hstep]; exact h
  · have ht0 : P.terminated = false := by simpa using ht
    cases a with
    | start ok => exact absurd rfl (hns ok)
    | set_system_info pubs subs frequency =>
      by_cases hc : P.caller = CallerPc.idle
      · have hm : (set_system_info pubs subs frequency P.logger).m_file = P.logger.m_file := by
          unfold set_system_info; split <;> rfl
        intro ho
        simp only [step, ht0, hc, if_true, Bool.false_eq_true, if_false, hm] at ho ⊢
        exact h ho
      · have hstep : step fmt P (Action.set_system_info pubs subs frequency) = P := by
          simp [step, ht0, hc]
        rw [hstep]; exact h
    | stop_enter =>
      by_cases hc : P.caller = CallerPc.idle
      · intro ho
        simp only [step, ht0, hc, if_true, Bool.false_eq_true, if_false] at ho ⊢
        exact h ho
      · have hstep : step fmt P Action.stop_enter = P := by simp [step, ht0, hc]
        rw [hstep]; exact h
    | stop_poll =>
      by_cases hc : P.caller = CallerPc.stop_wait
      · cases hd : P.logger._done
        · have hstep : step fmt P Action.stop_poll = P := by simp [step, ht0, hc, hd]
          rw [hstep]; exact h
        · intro ho
          simp only [step, ht0, hc, hd, if_true, Bool.false_eq_true, if_false] at ho ⊢
          exact h ho
      · have hstep : step fmt P Action.stop_poll = P := by simp [step, ht0, hc]
        rw [hstep]; exact h
    | stop_close =>
      by_cases hc : P.caller = CallerPc.stop_close
      · intro ho
        simp only [step, ht0, hc, if_true, Bool.false_eq_true, if_false, FileStream.close] at ho
        split at ho
        · simp at ho
        · rename_i hno
          exact absurd ho hno
      · have hstep : step fmt P Action.stop_close = P := by simp [step, ht0, hc]
        rw [hstep]; exact h
    | tick k env =>
      cases hk : P.samplers.get? k with
      | none =>
        have hstep : step fmt P (Action.tick k env) = P := by
          simp only [step, ht0, Bool.false_eq_true, if_false, hk]
        rw [hstep]; exact h
      | some t0 =>
        cases hst : sampler_step fmt env t0 P.logger with
        | error e =>
          intro ho
          simp only [step, ht0, hk, hst, Bool.false_eq_true, if_false] at ho ⊢
          exact h ho
        | ok r =>
          intro ho
          simp only [step, ht0, hk, hst, Bool.false_eq_true, if_false] at ho ⊢
          have hio := sampler_step_is_open fmt env t0 P.logger r hst
          rw [hio] at ho
          obtain ⟨hfail, t, ls, hs, hi, hc, hnl, hlen, hhead⟩ := h ho
          have hk0 : k = 0 ∧ t0 = t := by
            rw [hs] at hk
            cases k with
            | zero => simp at hk; exact ⟨rfl, hk.symm⟩
            | succ k => simp at hk
          obtain ⟨rfl, rfl⟩ := hk0
          obtain ⟨h1, h2, h3, h4⟩ := sampler_step_file fmt hf env t0 P.logger r hst ho hfail hi
          refine ⟨h2, r.1, ?_⟩
          rcases h4 with ⟨hc1, hl1⟩ | ⟨row, hrow, hc1, hl1, hh1⟩
          · refine ⟨ls, by simp [hs], h3, by simp only [hc1, hc], hnl, by rw [hl1, hlen], hhead⟩
          · refine ⟨ls ++ [row], by simp [hs], h3, ?_, ?_, ?_, ?_⟩
            · simp only [hc1, hc, join_lines_append]
            · intro l hl
              rcases List.mem_append.mp hl with hl | hl
              · exact hnl l hl
              · rw [List.mem_singleton.mp hl]; exact hrow
            · simp [hl1, hlen]
            · intro l hl
              cases ls with
              | nil =>
                simp at hl
                have h0 : lines_written t0 = 0 := by simpa using hlen.symm
                obtain ⟨L0, hL0⟩ := hh1 h0
                exact ⟨L0, by rw [← hl]; exact hL0⟩
              | cons x xs =>
                simp at hl
                exact hhead l (by simp [hl])

theorem exec_fileOk {D F : Type} (fmt : FloatText D F) (hf : fmt.WellFormed)
    (as : List (Action D F)) (hns : NoStart as) :
    ∀ P : Process D F, FileOk P → FileOk (exec fmt P as) := by
  induction as with
  | nil => intro P h; exact h
  | cons a as ih =>
    intro P h
    have h1 := step_fileOk fmt hf P a (hns a (List.mem_cons_self a as)) h
    exact ih (fun b hb => hns b (List.mem_cons_of_mem a hb)) _ h1

/-- While `stop` has not closed the file of a session, the file holds exactly the lines
the sampler thread has written (`lines_written`), and its first line is a header; with
`n >= 1` completed iterations and the sampler at the test of its loop or past it,
these are `n + 2` lines. -/
theorem open_file_lines {D F : Type} (fmt : FloatText D F) (hf : fmt.WellFormed)
    (P : Process D F) (hs : P.samplers = []) (hc : P.caller = CallerPc.idle)
    (ht : P.terminated = false) (ho : P.logger.m_file.is_open = false)
    (as : List (Action D F)) (hns : NoStart as)
    (hopen : (exec fmt (step fmt P (Action.start true)) as).logger.m_file.is_open = true) :
    ∃ t, (exec fmt (step fmt P (Action.start true)) as).samplers = [t]
      ∧ (lines (exec fmt (step fmt P (Action.start true)) as).logger.m_file.content).length
          = lines_written t
      ∧ (∀ l, (lines (exec fmt (step fmt P (Action.start true)) as).logger.m_file.content).head?
                = some l →
              ∃ L0 : ResourceUsageLogger D F, _print_header L0 = l ++ ['\n'])
      ∧ (∀ n, 1 ≤ n → t.i = n + 1 → t.pc = SamplerPc.check ∨ t.pc = SamplerPc.exited →
          (lines (exec fmt (step fmt P (Action.start true)) as).logger.m_file.content).length
            = n + 2) := by
  have h0 : FileOk (step fmt P (Action.start true)) := by
    intro _
    refine ⟨?_, { pc := SamplerPc.check, i := 1 }, [], ?_, by simp, ?_, by simp, rfl, by simp⟩
    · simp [step, ht, hc, start, FileStream.open, ho]
    · simp [step, ht, hc, start, FileStream.open, ho, hs]
    · simp [step, ht, hc, start, FileStream.open, ho, join_lines]
  obtain ⟨_, t, ls, h1, _, h3, h4, h5, h6⟩ := exec_fileOk fmt hf as hns _ h0 hopen
  refine ⟨t, h1, ?_, ?_, ?_⟩
  · rw [h3, lines_join_lines ls h4, h5]
  · rw [h3, lines_join_lines ls h4]
    exact h6
  · intro n hn hi hpc
    rw [h3, lines_join_lines ls h4, h5]
    have hn0 : n ≠ 0 := by omega
    rcases hpc with hpc | hpc <;> simp [lines_written, hpc, hi, hn0]

/-! ## `start` without a file, in every reachable state -/

/-- A statement of the sampler keeps `_log` and never clears `_done`. -/
theorem sampler_step_flags {D F : Type} (fmt : FloatText D F) (env : ProcEnv D) (t : Sampler)
    (L : ResourceUsageLogger D F) (r : Sampler × ResourceUsageLogger D F)
    (hst : sampler_step fmt env t L = Except.ok r) :
    r.2._log = L._log ∧ (L._done = true → r.2._done = true) := by
  unfold sampler_step at hst
  split at hst
  · split at hst <;> (cases hst; exact ⟨rfl, id⟩)
  · cases hst; exact ⟨rfl, id⟩
  · split at hst <;> (cases hst; exact ⟨rfl, id⟩)
  · cases hst; exact ⟨rfl, id⟩
  · split at hst
    · exact absurd hst (by simp)
    · rename_i L1 hg
      cases hst
      have h := get_frame env L L1 hg
      exact ⟨h.2.2.2.2.1, fun hd => by rw [h.2.2.2.2.2.1]; exact hd⟩
  · cases hst; exact ⟨rfl, id⟩
  · cases hst; exact ⟨rfl, id⟩
  · cases hst; exact ⟨rfl, fun _ => rfl⟩
  · cases hst; exact ⟨rfl, id⟩

theorem step_settled {D F : Type} (fmt : FloatText D F) (P : Process D F) (a : Action D F)
    (h : Settled P) : Settled (step fmt P a) := by
  by_cases ht : P.terminated = true
  · have hstep : step fmt P a = P := by simp [step, ht]
    rw [hstep]; exact h
  · have ht0 : P.terminated = false := by simpa using ht
    obtain ⟨h1, h2, h3⟩ := h
    cases a with
    | start ok =>
      by_cases hc : P.caller = CallerPc.idle
      · cases ho : P.logger.m_file.is_open
        · cases ok
          · have := h3 ho
            simp [Settled, step, ht0, hc, start, FileStream.open, ho, this]
          · simp [Settled, step, ht0, hc, start, FileStream.open, ho]
        · simp [Settled, step, ht0, hc, start, FileStream.open, ho]
      · have hstep : step fmt P (Action.start ok) = P := by simp [step, ht0, hc]
        rw [hstep]; exact ⟨h1, h2, h3⟩
    | set_system_info pubs subs frequency =>
      by_cases hc : P.caller = CallerPc.idle
      · cases hl : P.logger._log
        · simp only [Settled, step, ht0, hc, set_system_info, hl, Bool.false_eq_true, if_false,
            if_true]
          refine ⟨by simp, by simp, fun ho => ⟨trivial, (h3 ho).2⟩⟩
        · simp only [Settled, step, ht0, hc, set_system_info, hl, Bool.false_eq_true, if_false,
            if_true]
          refine ⟨by simp, by simp, fun ho => ?_⟩
          have := (h3 ho).1
          rw [hl] at this
          exact absurd this (by simp)
      · have hstep : step fmt P (Action.set_system_info pubs subs frequency) = P := by
          simp [step, ht0, hc]
        rw [hstep]; exact ⟨h1, h2, h3⟩
    | stop_enter =>
      by_cases hc : P.caller = CallerPc.idle
      · simp only [Settled, step, ht0, hc, Bool.false_eq_true, if_false, if_true]
        exact ⟨by simp, by simp, fun ho => ⟨trivial, (h3 ho).2⟩⟩
      · have hstep : step fmt P Action.stop_enter = P := by simp [step, ht0, hc]
        rw [hstep]; exact ⟨h1, h2, h3⟩
    | stop_poll =>
      by_cases hc : P.caller = CallerPc.stop_wait
      · cases hd : P.logger._done
        · have hstep : step fmt P Action.stop_poll = P := by simp [step, ht0, hc, hd]
          rw [hstep]; exact ⟨h1, h2, h3⟩
        · simp only [Settled, step, ht0, hc, hd, Bool.false_eq_true, if_false, if_true]
          exact ⟨fun _ => hd, fun _ => h2 (by rw [hc]; simp), h3⟩
      · have hstep : step fmt P Action.stop_poll = P := by simp [step, ht0, hc]
        rw [hstep]; exact ⟨h1, h2, h3⟩
    | stop_close =>
      by_cases hc : P.caller = CallerPc.stop_close
      · simp only [Settled, step, ht0, hc, Bool.false_eq_true, if_false, if_true]
        have hl := h2 (by rw [hc]; simp)
        have hd := h1 hc
        exact ⟨by simp, by simp, fun _ => ⟨hl, hd⟩⟩
      · have hstep : step fmt P Action.stop_close = P := by simp [step, ht0, hc]
        rw [hstep]; exact ⟨h1, h2, h3⟩
    | tick k env =>
      cases hk : P.samplers.get? k with
      | none =>
        have hstep : step fmt P (Action.tick k env) = P := by
          simp only [step, ht0, Bool.false_eq_true, if_false, hk]
        rw [hstep]; exact ⟨h1, h2, h3⟩
      | some t0 =>
        cases hst : sampler_step fmt env t0 P.logger with
        | error e =>
          simp only [Settled, step, ht0, hk, hst, Bool.false_eq_true, if_false]
          exact ⟨h1, h2, h3⟩
        | ok r =>
          simp only [Settled, step, ht0, hk, hst, Bool.false_eq_true, if_false]
          have hfl := sampler_step_flags fmt env t0 P.logger r hst
          have hio := sampler_step_is_open fmt env t0 P.logger r hst
          refine ⟨fun hc => hfl.2 (h1 hc), fun hc => by rw [hfl.1]; exact h2 hc, fun ho => ?_⟩
          rw [hio] at ho
          exact ⟨by rw [hfl.1]; exact (h3 ho).1, hfl.2 (h3 ho).2⟩

theorem exec_settled {D F : Type} (fmt : FloatText D F) (as : List (Action D F)) :
    ∀ P : Process D F, Settled P → Settled (exec fmt P as) := by
  induction as with
  | nil => intro P h; exact h
  | cons a as ih => intro P h; exact ih _ (step_settled fmt P a h)

theorem new_settled {D F : Type} (fmt : FloatText D F) (filename : List Char) (pid : Nat)
    (pagesize : Int) : Settled (Process.new fmt filename pid pagesize) := by
  refine ⟨fun _ => rfl, fun h => absurd rfl h, fun _ => ⟨rfl, rfl⟩⟩

/-- C5: in every state the process reaches from the constructor in which `start` can
be called and no file is open, a `start` whose file cannot be opened does not
terminate the process and leaves the logger not logging as after construction:
`_log` false, `_done` true, no sampler thread created, no character written; the
first test of the wait loop of a following `stop` finds `_done` true, and `stop`
returns with no action of any other thread. -/
theorem start_without_file {D F : Type} (fmt : FloatText D F) (filename : List Char)
    (pid : Nat) (pagesize : Int) (as : List (Action D F))
    (hc : (exec fmt (Process.new fmt filename pid pagesize) as).caller = CallerPc.idle)
    (ht : (exec fmt (Process.new fmt filename pid pagesize) as).terminated = false)
    (ho : (exec fmt (Process.new fmt filename pid pagesize) as).logger.m_file.is_open = false) :
    (exec fmt (Process.new fmt filename pid pagesize) (as ++ [Action.start false])).logger._log
      = false
    ∧ (exec fmt (Process.new fmt filename pid pagesize) (as ++ [Action.start false])).logger._done
      = true
    ∧ (exec fmt (Process.new fmt filename pid pagesize) (as ++ [Action.start false])).samplers
      = (exec fmt (Process.new fmt filename pid pagesize) as).samplers
    ∧ (exec fmt (Process.new fmt filename pid pagesize)
        (as ++ [Action.start false])).logger.m_file.content
      = (exec fmt (Process.new fmt filename pid pagesize) as).logger.m_file.content
    ∧ (exec fmt (Process.new fmt filename pid pagesize)
        (as ++ [Action.start false])).logger.m_file.is_open = false
    ∧ (exec fmt (Process.new fmt filename pid pagesize) (as ++ [Action.start false])).terminated
      = false
    ∧ (exec fmt (Process.new fmt filename pid pagesize) (as ++ [Action.start false])).caller
      = CallerPc.idle
    ∧ (exec fmt (Process.new fmt filename pid pagesize)
        (as ++ [Action.start false, Action.stop_enter, Action.stop_poll])).caller
      = CallerPc.stop_close
    ∧ (exec fmt (Process.new fmt filename pid pagesize)
        (as ++ [Action.start false, Action.stop_enter, Action.stop_poll,
                Action.stop_close])).caller
      = CallerPc.idle := by
  have hs := exec_settled fmt as _ (new_settled fmt filename pid pagesize)
  obtain ⟨hl, hd⟩ := hs.2.2 ho
  simp only [exec, List.foldl_append, List.foldl_cons, List.foldl_nil] at hc ht ho hl hd ⊢
  generalize List.foldl (step fmt) (Process.new fmt filename pid pagesize) as = P at *
  simp [step, hc, ht, start, FileStream.open, ho, hl, hd]

/-- Witness of `start_without_file`: the state after `early_stop`, where a first
session has been stopped. -/
theorem start_without_file_witness :
    (exec natText fresh_process early_stop).caller = CallerPc.idle
    ∧ (exec natText fresh_process early_stop).terminated = false
    ∧ (exec natText fresh_process early_stop).logger.m_file.is_open = false
    ∧ (exec natText fresh_process (early_stop ++ [Action.start false])).logger._log = false
    ∧ (exec natText fresh_process (early_stop ++ [Action.start false])).logger._done = true
    ∧ (exec natText fresh_process
        (early_stop ++ [Action.start false, Action.stop_enter, Action.stop_poll,
                        Action.stop_close])).caller = CallerPc.idle :=
  ⟨rfl, rfl, rfl,
    (start_without_file natText "resources.txt".toList 4242 4096 early_stop rfl rfl rfl).1,
    (start_without_file natText "resources.txt".toList 4242 4096 early_stop rfl rfl rfl).2.1,
    (start_without_file natText "resources.txt".toList 4242 4096 early_stop rfl rfl
      rfl).2.2.2.2.2.2.2.2⟩

end performance_metrics

namespace performance_test

/-! ## The batch overload of `add_node` -/

/-- Once a call has thrown, the remaining positions change nothing. -/
theorem each_error {σ ε N : Type} (add_node : N → σ → Except ε σ) (nodes : List N) (e : ε)
    (ks : List Nat) :
    ks.foldl
      (fun acc k =>
        match acc, nodes.get? k with
        | Except.ok s1, some node => add_node node s1
        | other, _ => other)
      (Except.error e) = Except.error e := by
  induction ks with
  | nil => rfl
  | cons k ks ih => simpa [List.foldl_cons] using ih

/-- The calls at the positions after the first are the calls on the rest of the
sequence. -/
theorem each_shift {σ ε N : Type} (add_node : N → σ → Except ε σ) (node : N) (rest : List N)
    (ks : List Nat) :
    ∀ acc : Except ε σ,
      (ks.map Nat.succ).foldl
        (fun acc k =>
          match acc, (node :: rest).get? k with
          | Except.ok s1, some node => add_node node s1
          | other, _ => other)
        acc
      = ks.foldl
        (fun acc k =>
          match acc, rest.get? k with
          | Except.ok s1, some node => add_node node s1
          | other, _ => other)
        acc := by
  induction ks with
  | nil => intro acc; rfl
  | cons k ks ih =>
    intro acc
    simp only [List.map_cons, List.foldl_cons]
    exact ih _

/-- C6: for every sequence of nodes, the batch overload of `add_node` has the effect
of calling the single-node `add_node` on each element once, first element first; for
the empty sequence it leaves the system as it is. -/
theorem add_node_batch_eq_each {σ ε N : Type} (add_node : N → σ → Except ε σ)
    (nodes : List N) (s : σ) :
    add_node_batch add_node nodes s = add_each_in_order add_node nodes s
    ∧ add_node_batch add_node [] s = Except.ok s := by
  refine ⟨?_, rfl⟩
  induction nodes generalizing s with
  | nil => rfl
  | cons node rest ih =>
    unfold add_each_in_order
    rw [List.length_cons, List.range_succ_eq_map, List.foldl_cons, each_shift]
    simp only [List.get?_cons_zero]
    unfold add_node_batch
    cases h : add_node node s with
    | error e => simp only [each_error]
    | ok s1 => simpa [add_each_in_order] using ih s1

end performance_test

namespace performance_test_factory

/-! ## The topology factory -/

theorem fold_add_publisher (l : List String) :
    ∀ n : PerformanceNode,
      exposed (l.foldl (fun n t => add_publisher t n) n)
        = (n.node_name, n.pub_trackers.length + l.length, n.sub_trackers.length,
           n.client_trackers.length) := by
  induction l with
  | nil => intro n; rfl
  | cons t l ih =>
    intro n
    rw [List.foldl_cons, ih]
    simp [add_publisher, Nat.add_assoc, Nat.add_comm 1]

theorem fold_add_subscriber (l : List String) :
    ∀ n : PerformanceNode,
      exposed (l.foldl (fun n t => add_subscriber t n) n)
        = (n.node_name, n.pub_trackers.length, n.sub_trackers.length + l.length,
           n.client_trackers.length) := by
  induction l with
  | nil => intro n; rfl
  | cons t l ih =>
    intro n
    rw [List.foldl_cons, ih]
    simp [add_subscriber, Nat.add_assoc, Nat.add_comm 1]

theorem fold_add_client (l : List String) :
    ∀ n : PerformanceNode,
      exposed (l.foldl (fun n t => add_client t n) n)
        = (n.node_name, n.pub_trackers.length, n.sub_trackers.length,
           n.client_trackers.length + l.length) := by
  induction l with
  | nil => intro n; rfl
  | cons t l ih =>
    intro n
    rw [List.foldl_cons, ih]
    simp [add_client, Nat.add_assoc, Nat.add_comm 1]

theorem exposed_create_node (d : NodeDescription) : exposed (create_node d) = declared d := by
  have h1 := fold_add_publisher d.publishers
    { node_name := d.node_name, pub_trackers := [], sub_trackers := [], client_trackers := [] }
  have h2 := fold_add_subscriber d.subscribers
    (d.publishers.foldl (fun n t => add_publisher t n)
      { node_name := d.node_name, pub_trackers := [], sub_trackers := [], client_trackers := [] })
  have h3 := fold_add_client d.clients
    (d.subscribers.foldl (fun n t => add_subscriber t n)
      (d.publishers.foldl (fun n t => add_publisher t n)
        { node_name := d.node_name, pub_trackers := [], sub_trackers := [],
          client_trackers := [] }))
  simp only [exposed, Prod.mk.injEq, List.length_nil, Nat.zero_add] at h1 h2 h3
  obtain ⟨a1, a2, a3, a4⟩ := h1
  obtain ⟨b1, b2, b3, b4⟩ := h2
  obtain ⟨c1, c2, c3, c4⟩ := h3
  simp only [exposed, declared, create_node, Prod.mk.injEq]
  refine ⟨by rw [c1, b1, a1], by rw [c2, b2, a2], by rw [c3, b3, a3, Nat.zero_add],
    by rw [c4, b4, a4, Nat.zero_add]⟩

/-- C7: for every topology description, `parse_topology_from_json` returns one node
per declared node, in the declared order and with the declared name, and each node
exposes as many publisher, subscriber and client trackers as the description declares
publishers, subscribers and clients for it; for `node_0` with two publishers, `node_1`
with one subscriber and `node_2` with one client the counts are 2/0/0, 0/1/0 and
0/0/1. -/
theorem parse_topology_matches (desc : List NodeDescription) :
    (parse_topology_from_json desc).length = desc.length
    ∧ (parse_topology_from_json desc).map exposed = desc.map declared
    ∧ (parse_topology_from_json test_architecture).map exposed
        = [("node_0", 2, 0, 0), ("node_1", 0, 1, 0), ("node_2", 0, 0, 1)] := by
  refine ⟨?_, ?_, by decide⟩
  · induction desc with
    | nil => rfl
    | cons d ds ih => simp [parse_topology_from_json, ih]
  · induction desc with
    | nil => rfl
    | cons d ds ih => simp [parse_topology_from_json, ih, exposed_create_node]

end performance_test_factory
